import Mathlib

/-!
Shallow embedding of the authentication / authorization / realtime core of the
VMAX fleet-management backend (TypeScript), together with proofs of the
specification claims about it.

The embedding follows the source files:
* `src/types/index.ts` — role enumeration and token payload shapes;
* `src/middleware/auth.ts` — the pure authorization predicates
  `canAccessFleet`, `canAccessRegulator`, `canManageUser`;
* `src/utils/jwt.ts` — token generation and verification
  (`generateAccessToken`, `generateRefreshToken`, `generateTokenPair`,
  `verifyAccessToken`, `verifyRefreshToken`);
* `src/services/AuthService.ts` — `login`, `refreshTokens`, `resetPassword`;
* `src/websocket/WebSocketService.ts` — the realtime hub state
  (client registry, fleet/regulator subscription maps) and its handlers.

Conventions used throughout:
* JavaScript `Date` values become `Nat` epoch instants; `expiresIn` TTLs are
  `Nat` seconds added at signing time, mirroring `jwt.sign`.
* `string | null | undefined` becomes `Option String`; JavaScript truthiness
  of a string (`s && ...`) is `strTruthy` (empty string is falsy).
* External cryptographic collaborators (SHA-256 token hashing, bcrypt
  password verification) are passed in as function parameters: the code under
  verification never inspects their output beyond equality.
* Database rows are association lists kept in insertion order; `findOne`
  becomes `List.find?` (first match), `update ... where` becomes `List.map`
  guarded by the `where` predicate, and `create` appends.
* Fresh values produced by `uuidv4()` (token ids, family ids, row ids) are
  passed as explicit arguments; freshness is a hypothesis where a claim
  needs it.
-/

namespace VMAX

/-! ## Roles and token payloads (`src/types/index.ts`) -/

/-- The closed role enumeration `UserRole`. -/
inductive UserRole
  | ADMIN
  | SUB_ADMIN
  | FLEET_MGR
  | SUB_FLEET_MGR
  | FLEET_USER
  | REG_OWNER
  | ONBOARDING
  | UNIT_TESTER
deriving DecidableEq, Repr

/-- Access-token claims (`JwtPayload`). -/
structure JwtPayload where
  sub : String
  userId : String
  role : UserRole
  fleetId : Option String
  ownedRegulatorIds : List String
  iat : Nat
  exp : Nat
  jti : String
deriving DecidableEq, Repr

/-- Refresh-token claims (`RefreshTokenPayload`). -/
structure RefreshTokenPayload where
  sub : String
  userId : String
  tokenFamily : String
  iat : Nat
  exp : Nat
deriving DecidableEq, Repr

/-- JavaScript truthiness of a nullable string: `null`, `undefined` and the
empty string are falsy. -/
def strTruthy : Option String → Bool
  | none => false
  | some s => !s.isEmpty

/-! ## Authorization predicates (`src/middleware/auth.ts`) -/

/-- `canAccessFleet(user, fleetId)`. Note the fleet-scoped branch admits only
`FLEET_MGR` and `SUB_FLEET_MGR`; `FLEET_USER` is not in the list. -/
def canAccessFleet (user : JwtPayload) (fleetId : String) : Bool :=
  if user.role == .ADMIN || user.role == .SUB_ADMIN then true
  else if (user.role == .FLEET_MGR || user.role == .SUB_FLEET_MGR)
      && user.fleetId == some fleetId then true
  else false

/-- `canAccessRegulator(user, regulatorFleetId, regulatorOwnerId)`.
The `regulatorFleetId && ...` truthiness guard of the source is `strTruthy`. -/
def canAccessRegulator (user : JwtPayload) (regulatorFleetId : Option String)
    (regulatorOwnerId : Option String) : Bool :=
  if user.role == .ADMIN || user.role == .SUB_ADMIN then true
  else if (user.role == .FLEET_MGR || user.role == .SUB_FLEET_MGR)
      && strTruthy regulatorFleetId && user.fleetId == regulatorFleetId then true
  else if user.role == .FLEET_USER
      && strTruthy regulatorFleetId && user.fleetId == regulatorFleetId then true
  else if user.role == .REG_OWNER && regulatorOwnerId == some user.userId then true
  else false

/-- `canManageUser(requestingUser, targetUserRole, targetUserFleetId)`.
Note the first branch tests `=== UserRole.ADMIN` only: `SUB_ADMIN` falls
through to `false`. -/
def canManageUser (requestingUser : JwtPayload) (targetUserRole : UserRole)
    (targetUserFleetId : Option String) : Bool :=
  if requestingUser.role == .ADMIN then true
  else if requestingUser.role == .FLEET_MGR then
    (targetUserRole == .FLEET_USER || targetUserRole == .SUB_FLEET_MGR)
      && requestingUser.fleetId == targetUserFleetId
  else false

/-! ## Token codec (`src/utils/jwt.ts`)

A signed compact token is modelled as its decoded content plus the secret it
was signed with: `jwt.sign` is deterministic, so the raw string is a function
of (payload, secret), and `jwt.verify(token, secret)` succeeds exactly when
the secrets agree and the embedded expiry has not passed. -/

/-- The payload carried by a signed token. `jwt.verify` never inspects which
kind it is; the TypeScript code merely casts the result. -/
inductive TokenPayload
  | access (p : JwtPayload)
  | refresh (p : RefreshTokenPayload)
deriving DecidableEq, Repr

/-- A signed compact token (three dot-separated segments in the source),
identified by its decoded payload and signing secret. -/
structure SignedToken where
  payload : TokenPayload
  secret : String
deriving DecidableEq, Repr

/-- `config.jwt` with the two TTLs already parsed to seconds
(`getAccessTokenExpirySeconds` / `getRefreshTokenExpirySeconds`). -/
structure JwtConfig where
  secret : String
  accessExpirySeconds : Nat
  refreshExpirySeconds : Nat
deriving DecidableEq, Repr

/-- The `userId` field present in both payload shapes. -/
def TokenPayload.userId : TokenPayload → String
  | .access p => p.userId
  | .refresh p => p.userId

/-- The `exp` claim of either payload shape. -/
def TokenPayload.exp : TokenPayload → Nat
  | .access p => p.exp
  | .refresh p => p.exp

/-- `generateAccessToken`: signs a fresh access payload. `fleetId || null`
collapses falsy fleet ids to `null`. `jti` is the fresh `uuidv4()`. -/
def generateAccessToken (cfg : JwtConfig) (now : Nat) (jti : String)
    (userId email : String) (role : UserRole) (fleetId : Option String)
    (ownedRegulatorIds : List String) : SignedToken :=
  { payload := .access
      { sub := email
        userId := userId
        role := role
        fleetId := if strTruthy fleetId then fleetId else none
        ownedRegulatorIds := ownedRegulatorIds
        iat := now
        exp := now + cfg.accessExpirySeconds
        jti := jti }
    secret := cfg.secret }

/-- `tokenFamily || uuidv4()`: reuse a truthy existing family, otherwise take
the fresh one. -/
def orFreshFamily (tokenFamily : Option String) (fresh : String) : String :=
  if strTruthy tokenFamily then tokenFamily.getD fresh else fresh

/-- `generateRefreshToken`: signs a refresh payload under the (possibly
fresh) family and returns the token together with the family used. -/
def generateRefreshToken (cfg : JwtConfig) (now : Nat) (freshFamily : String)
    (userId email : String) (tokenFamily : Option String) :
    SignedToken × String :=
  let family := orFreshFamily tokenFamily freshFamily
  ({ payload := .refresh
      { sub := email
        userId := userId
        tokenFamily := family
        iat := now
        exp := now + cfg.refreshExpirySeconds }
     secret := cfg.secret }, family)

/-- The `TokenPair` returned by `generateTokenPair`. -/
structure TokenPair where
  accessToken : SignedToken
  refreshToken : SignedToken
  tokenFamily : String
  accessTokenExpiresIn : Nat
  refreshTokenExpiresAt : Nat
deriving DecidableEq, Repr

/-- `generateTokenPair`. -/
def generateTokenPair (cfg : JwtConfig) (now : Nat) (jti freshFamily : String)
    (userId email : String) (role : UserRole) (fleetId : Option String)
    (ownedRegulatorIds : List String) (existingTokenFamily : Option String) :
    TokenPair :=
  let accessToken := generateAccessToken cfg now jti userId email role fleetId
    ownedRegulatorIds
  let rt := generateRefreshToken cfg now freshFamily userId email
    existingTokenFamily
  { accessToken := accessToken
    refreshToken := rt.1
    tokenFamily := rt.2
    accessTokenExpiresIn := cfg.accessExpirySeconds
    refreshTokenExpiresAt := now + cfg.refreshExpirySeconds }

/-- Outcome kinds of `jwt.verify`. -/
inductive VerifyError
  | expired
  | invalid
deriving DecidableEq, Repr

/-- `jwt.verify(token, config.jwt.secret)`: rejects a wrong signature and an
elapsed expiry, otherwise returns the decoded payload unchanged. -/
def jwtVerify (cfg : JwtConfig) (now : Nat) (t : SignedToken) :
    Except VerifyError TokenPayload :=
  if t.secret ≠ cfg.secret then .error .invalid
  else if t.payload.exp ≤ now then .error .expired
  else .ok t.payload

/-- `verifyAccessToken`: `jwt.verify` with the shared secret; the result is
cast to `JwtPayload` without inspecting which payload kind it is. -/
def verifyAccessToken (cfg : JwtConfig) (now : Nat) (t : SignedToken) :
    Except VerifyError TokenPayload :=
  jwtVerify cfg now t

/-- `verifyRefreshToken`: the same `jwt.verify` call with the same secret,
cast to `RefreshTokenPayload`. -/
def verifyRefreshToken (cfg : JwtConfig) (now : Nat) (t : SignedToken) :
    Except VerifyError TokenPayload :=
  jwtVerify cfg now t

/-! ## Password strength policy -/

/-- The special-character class of the password policy (the class used by the
repository's validation chains in `src/middleware/validation.ts`). -/
def specialChars : List Char :=
  ['!', '@', '#', '$', '%', '^', '&', '*', '(', ')', '_', '+', '-', '=',
   '[', ']', '\x7b', '\x7d', ';', '\'', ':', '\"', '\\', '|', ',', '.',
   '<', '>', '/', '?']

/-- The `{ valid, errors }` result of `validatePasswordStrength`. -/
structure PasswordValidation where
  valid : Bool
  errors : List String
deriving DecidableEq, Repr

/-- Modelled from the spec: the implementation file `src/utils/password.ts`
is not among the sources — only its unit tests and its callers are. The
spec fixes the policy (length between 8 and 128, at least one uppercase,
lowercase, digit and special character, violations accumulated as distinct
messages without short-circuiting), and the repository's unit tests fix the
exact message text of five of the six rules. -/
def validatePasswordStrength (password : String) : PasswordValidation :=
  let errors :=
    (if password.length < 8 then
      ["Password must be at least 8 characters long"] else []) ++
    (if password.length > 128 then
      ["Password must be at most 128 characters long"] else []) ++
    (if password.data.any Char.isUpper then [] else
      ["Password must contain at least one uppercase letter"]) ++
    (if password.data.any Char.isLower then [] else
      ["Password must contain at least one lowercase letter"]) ++
    (if password.data.any Char.isDigit then [] else
      ["Password must contain at least one number"]) ++
    (if password.data.any (fun c => c ∈ specialChars) then [] else
      ["Password must contain at least one special character"])
  { valid := errors.isEmpty, errors := errors }

/-! ## Persistent rows and service state (`src/models`, `src/services/AuthService.ts`) -/

/-- A `users` row, restricted to the fields the auth flows read or write. -/
structure UserRec where
  id : String
  email : String
  passwordHash : String
  role : UserRole
  fleetId : Option String
  isActive : Bool
  lastLoginAt : Option Nat
deriving DecidableEq, Repr

/-- A `regulators` row, restricted to the fields used to compute
`ownedRegulatorIds`. -/
structure RegulatorRec where
  id : String
  ownerUserId : Option String
  isActive : Bool
deriving DecidableEq, Repr

/-- A `refresh_tokens` row (the Session Ledger entry). -/
structure LedgerEntry where
  id : String
  userId : String
  tokenHash : String
  tokenFamily : String
  expiresAt : Nat
  revokedAt : Option Nat
  createdAt : Nat
deriving DecidableEq, Repr

/-- A `password_resets` row. -/
structure ResetRec where
  id : String
  userId : String
  tokenHash : String
  expiresAt : Nat
  usedAt : Option Nat
deriving DecidableEq, Repr

/-- The persistent state the auth flows read and write, each table in
insertion order. -/
structure AuthState where
  users : List UserRec
  regulators : List RegulatorRec
  ledger : List LedgerEntry
  resets : List ResetRec
deriving DecidableEq, Repr

/-- An `AppError` as thrown by the service layer. -/
structure AppError where
  message : String
  status : Nat
  code : String
deriving DecidableEq, Repr

/-- `AppError('Invalid email or password', 401, 'INVALID_CREDENTIALS')`. -/
def invalidCredentialsError : AppError :=
  { message := "Invalid email or password", status := 401
    code := "INVALID_CREDENTIALS" }

/-- `AppError('Invalid or expired refresh token', 401, 'INVALID_REFRESH_TOKEN')`. -/
def invalidRefreshError : AppError :=
  { message := "Invalid or expired refresh token", status := 401
    code := "INVALID_REFRESH_TOKEN" }

/-- `AppError('Refresh token not found', 401, 'INVALID_REFRESH_TOKEN')`. -/
def refreshNotFoundError : AppError :=
  { message := "Refresh token not found", status := 401
    code := "INVALID_REFRESH_TOKEN" }

/-- `AppError('Refresh token has been revoked', 403, 'TOKEN_REVOKED')`. -/
def tokenRevokedError : AppError :=
  { message := "Refresh token has been revoked", status := 403
    code := "TOKEN_REVOKED" }

/-- `AppError('Refresh token has expired', 401, 'TOKEN_EXPIRED')`. -/
def refreshExpiredError : AppError :=
  { message := "Refresh token has expired", status := 401
    code := "TOKEN_EXPIRED" }

/-- `AppError('User not found or inactive', 401, 'USER_NOT_FOUND')`. -/
def userNotFoundError : AppError :=
  { message := "User not found or inactive", status := 401
    code := "USER_NOT_FOUND" }

/-- `AppError('Invalid or expired reset token', 400, 'INVALID_RESET_TOKEN')`. -/
def invalidResetError : AppError :=
  { message := "Invalid or expired reset token", status := 400
    code := "INVALID_RESET_TOKEN" }

/-- `AppError('Reset token has expired', 400, 'TOKEN_EXPIRED')`. -/
def resetExpiredError : AppError :=
  { message := "Reset token has expired", status := 400
    code := "TOKEN_EXPIRED" }

/-- `AppError(errors.join('. '), 422, 'WEAK_PASSWORD')`. -/
def weakPasswordError (errors : List String) : AppError :=
  { message := String.intercalate ". " errors, status := 422
    code := "WEAK_PASSWORD" }

/-- The public profile slice of `user.toPublic()` that the auth flows
return (presentation-only fields elided). -/
structure UserPublic where
  id : String
  email : String
  role : UserRole
  fleetId : Option String
deriving DecidableEq, Repr

/-- `LoginResponse`. -/
structure LoginResponse where
  accessToken : SignedToken
  refreshToken : SignedToken
  tokenType : String
  expiresIn : Nat
  user : UserPublic
deriving DecidableEq, Repr

/-- `TokenRefreshResponse`. -/
structure TokenRefreshResponse where
  accessToken : SignedToken
  refreshToken : SignedToken
  tokenType : String
  expiresIn : Nat
deriving DecidableEq, Repr

/-- The `ownedRegulatorIds` computation shared by `login` and
`refreshTokens`: ids of active regulators owned by the user, for
`REG_OWNER` only. -/
def ownedRegulatorIdsFor (st : AuthState) (user : UserRec) : List String :=
  if user.role == .REG_OWNER then
    (st.regulators.filter
      (fun r => r.ownerUserId == some user.id && r.isActive)).map (·.id)
  else []

/-- `AuthService.login`. `verifyPassword` is the external bcrypt
collaborator; `hashTok` is SHA-256 over the raw compact token; `jti`,
`freshFamily` and `entryId` are the fresh `uuidv4()` values drawn during the
call. Returns the state after the call's writes together with the thrown
error or the response. -/
def login (cfg : JwtConfig) (hashTok : SignedToken → String)
    (verifyPassword : String → String → Bool)
    (now : Nat) (jti freshFamily entryId : String)
    (st : AuthState) (email password : String) :
    AuthState × Except AppError LoginResponse :=
  match st.users.find? (fun u => u.email == email && u.isActive) with
  | none => (st, .error invalidCredentialsError)
  | some user =>
    if !verifyPassword password user.passwordHash then
      (st, .error invalidCredentialsError)
    else
      let owned := ownedRegulatorIdsFor st user
      let pair := generateTokenPair cfg now jti freshFamily user.id user.email
        user.role user.fleetId owned none
      let newEntry : LedgerEntry :=
        { id := entryId
          userId := user.id
          tokenHash := hashTok pair.refreshToken
          tokenFamily := pair.tokenFamily
          expiresAt := pair.refreshTokenExpiresAt
          revokedAt := none
          createdAt := now }
      let st' : AuthState :=
        { st with
          ledger := st.ledger ++ [newEntry]
          users := st.users.map (fun u =>
            if u.id == user.id then { u with lastLoginAt := some now } else u) }
      (st', .ok
        { accessToken := pair.accessToken
          refreshToken := pair.refreshToken
          tokenType := "Bearer"
          expiresIn := pair.accessTokenExpiresIn
          user := { id := user.id, email := user.email, role := user.role
                    fleetId := user.fleetId } })

/-- The ledger lookup predicate of `refreshTokens`:
`RefreshToken.findOne({ where: { tokenHash, userId } })`. -/
def ledgerMatch (tokenHash userId : String) (e : LedgerEntry) : Bool :=
  e.tokenHash == tokenHash && e.userId == userId

/-- `AuthService.refreshTokens`. The writes performed before a throw persist
(the source runs no transaction), so the state is returned alongside the
outcome. -/
def refreshTokens (cfg : JwtConfig) (hashTok : SignedToken → String)
    (now : Nat) (jti freshFamily entryId : String)
    (st : AuthState) (refreshToken : SignedToken) :
    AuthState × Except AppError TokenRefreshResponse :=
  match verifyRefreshToken cfg now refreshToken with
  | .error _ => (st, .error invalidRefreshError)
  | .ok payload =>
    let tokenHash := hashTok refreshToken
    match st.ledger.find? (ledgerMatch tokenHash payload.userId) with
    | none => (st, .error refreshNotFoundError)
    | some storedToken =>
      if storedToken.revokedAt.isSome then
        -- Token reuse detected - revoke all tokens in the family
        ({ st with ledger := st.ledger.map (fun e =>
            if e.tokenFamily == storedToken.tokenFamily then
              { e with revokedAt := some now } else e) },
         .error tokenRevokedError)
      else if storedToken.expiresAt < now then
        (st, .error refreshExpiredError)
      else
        match st.users.find? (fun u => u.id == payload.userId) with
        | none => (st, .error userNotFoundError)
        | some user =>
          if !user.isActive then (st, .error userNotFoundError)
          else
            let owned := ownedRegulatorIdsFor st user
            let pair := generateTokenPair cfg now jti freshFamily user.id
              user.email user.role user.fleetId owned
              (some storedToken.tokenFamily)
            let newEntry : LedgerEntry :=
              { id := entryId
                userId := user.id
                tokenHash := hashTok pair.refreshToken
                tokenFamily := pair.tokenFamily
                expiresAt := pair.refreshTokenExpiresAt
                revokedAt := none
                createdAt := now }
            ({ st with ledger :=
                (st.ledger.map (fun e =>
                  if e.id == storedToken.id then
                    { e with revokedAt := some now } else e)) ++ [newEntry] },
             .ok { accessToken := pair.accessToken
                   refreshToken := pair.refreshToken
                   tokenType := "Bearer"
                   expiresIn := pair.accessTokenExpiresIn })

/-- The reset-record lookup predicate of `resetPassword`:
`PasswordReset.findOne({ where: { tokenHash, usedAt: null } })`. -/
def resetMatch (tokenHash : String) (r : ResetRec) : Bool :=
  r.tokenHash == tokenHash && r.usedAt.isNone

/-- `AuthService.resetPassword`. `hashReset` is SHA-256 over the raw reset
token string and `hashPassword` the external bcrypt collaborator. -/
def resetPassword (hashReset : String → String)
    (hashPassword : String → String) (now : Nat)
    (st : AuthState) (token newPassword : String) :
    AuthState × Except AppError String :=
  match st.resets.find? (resetMatch (hashReset token)) with
  | none => (st, .error invalidResetError)
  | some resetRecord =>
    if resetRecord.expiresAt < now then (st, .error resetExpiredError)
    else if !(validatePasswordStrength newPassword).valid then
      (st, .error (weakPasswordError
        (validatePasswordStrength newPassword).errors))
    else
      ({ st with
         users := st.users.map (fun u =>
           if u.id == resetRecord.userId then
             { u with passwordHash := hashPassword newPassword } else u)
         resets := st.resets.map (fun r =>
           if r.id == resetRecord.id then { r with usedAt := some now }
           else r)
         ledger := st.ledger.map (fun e =>
           if e.userId == resetRecord.userId && e.revokedAt.isNone then
             { e with revokedAt := some now } else e) },
       .ok "Password reset successful")

/-! ## Realtime hub (`src/websocket/WebSocketService.ts`)

JavaScript `Map`s become association lists in insertion order and `Set`s
become duplicate-free lists in insertion order. A connected client object is
aliased by the `clients` map under its own id, so every in-place mutation of
`client.subscriptions` is mirrored on the registered record. -/

/-- `Map.get`: value at the first (unique) occurrence of the key. -/
def mapGet {β : Type} (m : List (String × β)) (k : String) : Option β :=
  (m.find? (fun kv => kv.1 == k)).map (·.2)

/-- `Map.set`: replace the value at an existing key, else append the pair. -/
def mapSet {β : Type} (m : List (String × β)) (k : String) (v : β) :
    List (String × β) :=
  if (m.find? (fun kv => kv.1 == k)).isSome then
    m.map (fun kv => if kv.1 == k then (k, v) else kv)
  else m ++ [(k, v)]

/-- `Map.delete`. -/
def mapDelete {β : Type} (m : List (String × β)) (k : String) :
    List (String × β) :=
  m.filter (fun kv => kv.1 != k)

/-- `Set.add`: append if absent. -/
def setAdd (s : List String) (x : String) : List String :=
  if s.contains x then s else s ++ [x]

/-- `Set.delete`. -/
def setDelete (s : List String) (x : String) : List String :=
  s.filter (fun y => y != x)

/-- A `WebSocketClient`: connection id, authenticated claims (absent until
authentication), and its set of subscription keys. -/
structure WSClient where
  id : String
  user : Option JwtPayload
  subscriptions : List String
deriving DecidableEq, Repr

/-- The hub's shared mutable state: client registry and the two
channel-subscription maps (`fleetId -> Set<clientId>`,
`regulatorId -> Set<clientId>`). -/
structure HubState where
  clients : List (String × WSClient)
  fleetSubscriptions : List (String × List String)
  regulatorSubscriptions : List (String × List String)
deriving DecidableEq, Repr

/-- The hub state before any connection. -/
def emptyHub : HubState :=
  { clients := [], fleetSubscriptions := [], regulatorSubscriptions := [] }

/-- Mutation of an aliased client object's `subscriptions` set, as seen
through the registry: rewrites the record stored under `cid`, if any. -/
def updateSubs (m : List (String × WSClient)) (cid : String)
    (f : List String → List String) : List (String × WSClient) :=
  m.map (fun kv =>
    if kv.1 == cid then (kv.1, { kv.2 with subscriptions := f kv.2.subscriptions })
    else kv)

/-- `subscribeToFleet(client, fleetId)`: add the key to the client's set and
the client id to the fleet channel's subscriber set (created when absent). -/
def subscribeToFleet (st : HubState) (c : WSClient) (fleetId : String) :
    HubState :=
  let subKey := "fleet:" ++ fleetId
  let cur := (mapGet st.fleetSubscriptions fleetId).getD []
  { st with
    clients := updateSubs st.clients c.id (fun subs => setAdd subs subKey)
    fleetSubscriptions :=
      mapSet st.fleetSubscriptions fleetId (setAdd cur c.id) }

/-- `unsubscribeFromFleet(client, fleetId)`: drop the key from the client's
set, drop the id from the channel's subscriber set, and drop the channel
entry entirely when it becomes empty. -/
def unsubscribeFromFleet (st : HubState) (c : WSClient) (fleetId : String) :
    HubState :=
  let subKey := "fleet:" ++ fleetId
  let clients := updateSubs st.clients c.id (fun subs => setDelete subs subKey)
  match mapGet st.fleetSubscriptions fleetId with
  | none => { st with clients := clients }
  | some subscribers =>
    let subscribers' := setDelete subscribers c.id
    if subscribers'.isEmpty then
      { st with
        clients := clients
        fleetSubscriptions := mapDelete st.fleetSubscriptions fleetId }
    else
      { st with
        clients := clients
        fleetSubscriptions :=
          mapSet st.fleetSubscriptions fleetId subscribers' }

/-- `subscribeToRegulator(client, regulatorId)`. -/
def subscribeToRegulator (st : HubState) (c : WSClient)
    (regulatorId : String) : HubState :=
  let subKey := "regulator:" ++ regulatorId
  let cur := (mapGet st.regulatorSubscriptions regulatorId).getD []
  { st with
    clients := updateSubs st.clients c.id (fun subs => setAdd subs subKey)
    regulatorSubscriptions :=
      mapSet st.regulatorSubscriptions regulatorId (setAdd cur c.id) }

/-- `unsubscribeFromRegulator(client, regulatorId)`. -/
def unsubscribeFromRegulator (st : HubState) (c : WSClient)
    (regulatorId : String) : HubState :=
  let subKey := "regulator:" ++ regulatorId
  let clients := updateSubs st.clients c.id (fun subs => setDelete subs subKey)
  match mapGet st.regulatorSubscriptions regulatorId with
  | none => { st with clients := clients }
  | some subscribers =>
    let subscribers' := setDelete subscribers c.id
    if subscribers'.isEmpty then
      { st with
        clients := clients
        regulatorSubscriptions :=
          mapDelete st.regulatorSubscriptions regulatorId }
    else
      { st with
        clients := clients
        regulatorSubscriptions :=
          mapSet st.regulatorSubscriptions regulatorId subscribers' }

/-- `canSubscribeToFleet(user, fleetId)` — the hub-local fleet predicate
(this one does include `FLEET_USER`). -/
def canSubscribeToFleet (user : JwtPayload) (fleetId : String) : Bool :=
  if user.role == .ADMIN || user.role == .SUB_ADMIN then true
  else if user.role == .FLEET_MGR || user.role == .SUB_FLEET_MGR
      || user.role == .FLEET_USER then
    user.fleetId == some fleetId
  else false

/-- The payload of a `SUBSCRIBE`/`UNSUBSCRIBE` runtime message. -/
structure SubscribePayload where
  channel : String
  fleetId : Option String
  regulatorId : Option String
deriving DecidableEq, Repr

/-- What the handler sends back on the connection. -/
inductive WsReply
  | subscribed (channel : String) (fleetId regulatorId : Option String)
  | unsubscribed (channel : String) (fleetId regulatorId : Option String)
  | errorMsg (message : String)
  | silent
deriving DecidableEq, Repr

/-- `handleSubscribe`. The fleet branch consults `canSubscribeToFleet` and
returns an error reply (the connection stays open) when denied; the regulator branch
performs no authorization check — the source reads
`// Check authorization would go here` — and subscribes unconditionally.
Every path that is not the early error return sends `SUBSCRIBED`. -/
def handleSubscribe (st : HubState) (c : WSClient)
    (payload : SubscribePayload) : HubState × WsReply :=
  match c.user with
  | none => (st, .silent)
  | some user =>
    if payload.channel == "fleet" && strTruthy payload.fleetId then
      let fleetId := payload.fleetId.getD ""
      if !canSubscribeToFleet user fleetId then
        (st, .errorMsg "Not authorized to subscribe to this fleet")
      else
        (subscribeToFleet st c fleetId,
         .subscribed payload.channel payload.fleetId payload.regulatorId)
    else if payload.channel == "regulator" && strTruthy payload.regulatorId then
      (subscribeToRegulator st c (payload.regulatorId.getD ""),
       .subscribed payload.channel payload.fleetId payload.regulatorId)
    else
      (st, .subscribed payload.channel payload.fleetId payload.regulatorId)

/-- `handleUnsubscribe` (no authentication guard in the source). -/
def handleUnsubscribe (st : HubState) (c : WSClient)
    (payload : SubscribePayload) : HubState × WsReply :=
  if payload.channel == "fleet" && strTruthy payload.fleetId then
    (unsubscribeFromFleet st c (payload.fleetId.getD ""),
     .unsubscribed payload.channel payload.fleetId payload.regulatorId)
  else if payload.channel == "regulator" && strTruthy payload.regulatorId then
    (unsubscribeFromRegulator st c (payload.regulatorId.getD ""),
     .unsubscribed payload.channel payload.fleetId payload.regulatorId)
  else
    (st, .unsubscribed payload.channel payload.fleetId payload.regulatorId)

/-- `sub.startsWith(tag)`, at the level of character data. -/
def hasTag (tag sub : String) : Bool :=
  tag.data.isPrefixOf sub.data

/-- `sub.replace(tag, '')` for a `sub` that starts with `tag`: the first
occurrence of the tag is its leading occurrence, so replacing it by the
empty string drops the prefix. -/
def stripTag (tag sub : String) : String :=
  ⟨sub.data.drop tag.data.length⟩

/-- One iteration of `handleDisconnect`'s unwinding loop over the client's
subscription keys. -/
def unsubStep (c : WSClient) (s : HubState) (sub : String) : HubState :=
  if hasTag "fleet:" sub then
    unsubscribeFromFleet s c (stripTag "fleet:" sub)
  else if hasTag "regulator:" sub then
    unsubscribeFromRegulator s c (stripTag "regulator:" sub)
  else s

/-- `handleDisconnect(client)`: unwind every subscription key of the client
(each iteration deletes exactly the visited key, so iterating the original
set is exact), then delete the client from the registry. Also the body of
the liveness sweep for a dead connection. -/
def handleDisconnect (st : HubState) (c : WSClient) : HubState :=
  let st₁ := c.subscriptions.foldl (unsubStep c) st
  { st₁ with clients := mapDelete st₁.clients c.id }

/-- Registration on successful connect-time authentication:
`clients.set(client.id, client)`. -/
def registerClient (st : HubState) (c : WSClient) : HubState :=
  { st with clients := mapSet st.clients c.id c }

/-- `autoSubscribe`: fleet-scoped roles join their fleet's channel. -/
def autoSubscribe (st : HubState) (c : WSClient) : HubState :=
  match c.user with
  | none => st
  | some user =>
    if strTruthy user.fleetId
        && (user.role == .FLEET_MGR || user.role == .SUB_FLEET_MGR
            || user.role == .FLEET_USER) then
      subscribeToFleet st c (user.fleetId.getD "")
    else st

/-- The freshly initialised client object for a connection that passed
token verification. -/
def freshClient (cid : String) (payload : JwtPayload) : WSClient :=
  { id := cid, user := some payload, subscriptions := [] }

/-- One observable hub transition: an authenticated connect (with a fresh
`uuidv4()` id), a runtime `SUBSCRIBE`/`UNSUBSCRIBE` message from a
registered connection, or a disconnect (client close or liveness sweep) of
a registered connection. Broadcasts do not change the state. -/
inductive HubStep : HubState → HubState → Prop
  | connect (st : HubState) (cid : String) (payload : JwtPayload)
      (hfresh : mapGet st.clients cid = none) :
      HubStep st
        (autoSubscribe (registerClient st (freshClient cid payload))
          (freshClient cid payload))
  | subscribe (st : HubState) (cid : String) (c : WSClient)
      (payload : SubscribePayload) (hc : mapGet st.clients cid = some c) :
      HubStep st (handleSubscribe st c payload).1
  | unsubscribe (st : HubState) (cid : String) (c : WSClient)
      (payload : SubscribePayload) (hc : mapGet st.clients cid = some c) :
      HubStep st (handleUnsubscribe st c payload).1
  | disconnect (st : HubState) (cid : String) (c : WSClient)
      (hc : mapGet st.clients cid = some c) :
      HubStep st (handleDisconnect st c)

/-- Hub states reachable from the initial empty state. -/
def Reachable (st : HubState) : Prop :=
  Relation.ReflTransGen HubStep emptyHub st

/-- Decidable statement that a connection id has fully vanished from the
hub: not registered, and in no fleet or regulator channel's subscriber
set. -/
def noResidue (st : HubState) (cid : String) : Bool :=
  (mapGet st.clients cid).isNone
    && st.fleetSubscriptions.all (fun kv => !kv.2.contains cid)
    && st.regulatorSubscriptions.all (fun kv => !kv.2.contains cid)

/-- The six policy violation messages, in the order the validator emits
them. -/
def allPasswordErrorMessages : List String :=
  ["Password must be at least 8 characters long",
   "Password must be at most 128 characters long",
   "Password must contain at least one uppercase letter",
   "Password must contain at least one lowercase letter",
   "Password must contain at least one number",
   "Password must contain at least one special character"]

/-! ### The C6 failing input: an actor the regulator predicate denies -/

/-- A `REG_OWNER` actor who owns no regulator. -/
def c6User : JwtPayload :=
  { sub := "owner@x", userId := "u9", role := .REG_OWNER, fleetId := none
    ownedRegulatorIds := [], iat := 0, exp := 100, jti := "j6" }

/-- That actor's authenticated connection. -/
def c6Client : WSClient :=
  { id := "c1", user := some c6User, subscriptions := [] }

/-- A hub with just that connection registered. -/
def c6Hub : HubState :=
  { clients := [("c1", c6Client)], fleetSubscriptions := []
    regulatorSubscriptions := [] }

/-- A `SUBSCRIBE` message for the device channel of regulator `r1`. -/
def c6Payload : SubscribePayload :=
  { channel := "regulator", fleetId := none, regulatorId := some "r1" }

/-! ### Concrete inputs for the C10 witness -/

/-- A stored credential. -/
def c10User : UserRec :=
  { id := "u1", email := "a@x", passwordHash := "H", role := .ADMIN
    fleetId := none, isActive := true, lastLoginAt := none }

/-- A state holding exactly that credential. -/
def c10State : AuthState :=
  { users := [c10User], regulators := [], ledger := [], resets := [] }

/-- A concrete token configuration. -/
def cfg0 : JwtConfig :=
  { secret := "s", accessExpirySeconds := 60, refreshExpirySeconds := 600 }

/-- `cid` sits in some subscriber set recorded for fleet channel `fid`
(entry-level: any association-list entry, not just the first). -/
def FleetSubscribed (st : HubState) (fid cid : String) : Prop :=
  ∃ subs, (fid, subs) ∈ st.fleetSubscriptions ∧ cid ∈ subs

/-- `cid` sits in some subscriber set recorded for device channel `rid`. -/
def RegSubscribed (st : HubState) (rid cid : String) : Prop :=
  ∃ subs, (rid, subs) ∈ st.regulatorSubscriptions ∧ cid ∈ subs

/-- The hub's bookkeeping invariant: registered records carry their own
registry key, and every id found in a channel's subscriber set belongs to a
registered client whose subscription set holds the channel's key. -/
structure HubInv (st : HubState) : Prop where
  clientsKey : ∀ cid c, mapGet st.clients cid = some c → c.id = cid
  fleetOwner : ∀ fid subs cid, (fid, subs) ∈ st.fleetSubscriptions →
    cid ∈ subs →
    ∃ cl, mapGet st.clients cid = some cl
      ∧ ("fleet:" ++ fid) ∈ cl.subscriptions
  regOwner : ∀ rid subs cid, (rid, subs) ∈ st.regulatorSubscriptions →
    cid ∈ subs →
    ∃ cl, mapGet st.clients cid = some cl
      ∧ ("regulator:" ++ rid) ∈ cl.subscriptions

/-! ### Concrete inputs for the C7 witness -/

/-- A fleet manager's claims, auto-subscribed to fleet `f1` on connect. -/
def p7 : JwtPayload :=
  { sub := "m@x", userId := "u7", role := .FLEET_MGR, fleetId := some "f1"
    ownedRegulatorIds := [], iat := 0, exp := 100, jti := "j7" }

/-- The hub state after that one connection is established. -/
def st7 : HubState :=
  autoSubscribe (registerClient emptyHub (freshClient "c1" p7))
    (freshClient "c1" p7)

/-- The registered client record in `st7`. -/
def c7conn : WSClient :=
  { id := "c1", user := some p7, subscriptions := ["fleet:f1"] }

/-! ### Concrete inputs for the refresh-rotation witnesses -/

/-- A concrete stand-in for SHA-256 over the raw compact token: any
function from tokens to strings works for the theorems; this one keeps
distinct scenario tokens distinct. -/
def hashTok0 : SignedToken → String
  | ⟨.access p, _⟩ => "A:" ++ p.jti
  | ⟨.refresh p, _⟩ => "R:" ++ p.tokenFamily ++ ":" ++ toString p.iat

/-- A stored active user. -/
def u1 : UserRec :=
  { id := "u1", email := "a@x", passwordHash := "H", role := .ADMIN
    fleetId := none, isActive := true, lastLoginAt := none }

/-- The refresh token minted at login for `u1` under family `fam`. -/
def t0 : SignedToken :=
  { payload := .refresh
      { sub := "a@x", userId := "u1", tokenFamily := "fam", iat := 0
        exp := 600 }
    secret := "s" }

/-- The ledger row recorded for `t0`. -/
def e0 : LedgerEntry :=
  { id := "e0", userId := "u1", tokenHash := hashTok0 t0, tokenFamily := "fam"
    expiresAt := 600, revokedAt := none, createdAt := 0 }

/-- The state right after that login. -/
def st0 : AuthState :=
  { users := [u1], regulators := [], ledger := [e0], resets := [] }

/-- The same ledger row already revoked (for the reuse-path witness). -/
def e0rev : LedgerEntry := { e0 with revokedAt := some 0 }

/-- A state holding the revoked row. -/
def stRev : AuthState :=
  { users := [u1], regulators := [], ledger := [e0rev], resets := [] }

/-- The response of refreshing `t0` in `st0` at time 1 with fresh values
`"j2"`, `"f2"`, `"e1"`. -/
def resp0 : TokenRefreshResponse :=
  { accessToken :=
      { payload := .access
          { sub := "a@x", userId := "u1", role := .ADMIN, fleetId := none
            ownedRegulatorIds := [], iat := 1, exp := 61, jti := "j2" }
        secret := "s" }
    refreshToken :=
      { payload := .refresh
          { sub := "a@x", userId := "u1", tokenFamily := "fam", iat := 1
            exp := 601 }
        secret := "s" }
    tokenType := "Bearer"
    expiresIn := 60 }

/-! ### Concrete inputs for the reset-password witness -/

/-- An unused reset record for `u1`. -/
def pr0 : ResetRec :=
  { id := "pr1", userId := "u1", tokenHash := "rst#", expiresAt := 100
    usedAt := none }

/-- A state with `u1` logged in (one live refresh row) and the pending
reset record. -/
def stReset : AuthState :=
  { users := [u1], regulators := [], ledger := [e0], resets := [pr0] }

/-! ## Claim theorems -/

/-- A successful `jwt.verify` returns the token's own payload and certifies
the matching secret and unexpired embedded expiry. -/
theorem jwtVerify_ok {cfg : JwtConfig} {now : Nat} {t : SignedToken}
    {pl : TokenPayload} (h : jwtVerify cfg now t = .ok pl) :
    pl = t.payload ∧ t.secret = cfg.secret ∧ now < t.payload.exp := by
  unfold jwtVerify at h
  split at h
  · cases h
  · split at h
    · cases h
    · rename_i h1 h2
      cases h
      refine ⟨rfl, by simpa using h1, ?_⟩
      omega

/-- Membership in a conditionally present singleton. -/
theorem mem_ite_singleton {c : Prop} [Decidable c] {m m' : String} :
    (m ∈ if c then [m'] else ([] : List String)) ↔ c ∧ m = m' := by
  split <;> simp_all

/-- Membership in an inverted conditionally present singleton. -/
theorem mem_ite_singleton_not {c : Prop} [Decidable c] {m m' : String} :
    (m ∈ if c then ([] : List String) else [m']) ↔ ¬c ∧ m = m' := by
  split <;> simp_all

/-- A conditionally present singleton is a sublist of its singleton. -/
theorem ite_singleton_sublist {c : Prop} [Decidable c] (m : String) :
    (if c then [m] else ([] : List String)).Sublist [m] := by
  split
  · exact List.Sublist.refl _
  · exact List.nil_sublist _

/-- The inverted form. -/
theorem ite_singleton_not_sublist {c : Prop} [Decidable c] (m : String) :
    (if c then ([] : List String) else [m]).Sublist [m] := by
  split
  · exact List.nil_sublist _
  · exact List.Sublist.refl _

/-- The violation list is always a sublist of the six messages in order. -/
theorem validatePasswordStrength_errors_sublist (s : String) :
    (validatePasswordStrength s).errors.Sublist allPasswordErrorMessages := by
  unfold validatePasswordStrength
  exact ((((ite_singleton_sublist _).append
    (ite_singleton_sublist _)).append
    (ite_singleton_not_sublist _)).append
    (ite_singleton_not_sublist _)).append
    (ite_singleton_not_sublist _) |>.append
    (ite_singleton_not_sublist _)

/-- C4 (amended): `canManageUser` holds exactly for an `ADMIN` actor, or a
`FLEET_MGR` actor targeting a `FLEET_USER` or `SUB_FLEET_MGR` in the
actor's own fleet scope; in particular a `FLEET_MGR` can never manage an
`ADMIN`. (`SUB_ADMIN`, though system-wide tier, is denied.) -/
theorem canManageUser_characterization :
    (∀ (u : JwtPayload) (tr : UserRole) (tf : Option String),
      canManageUser u tr tf = true ↔
        (u.role = .ADMIN ∨
          (u.role = .FLEET_MGR ∧ (tr = .FLEET_USER ∨ tr = .SUB_FLEET_MGR)
            ∧ u.fleetId = tf)))
    ∧ (∀ (sub uid : String) (fid : Option String) (own : List String)
        (iat ex : Nat) (jti : String) (tf : Option String),
      canManageUser ⟨sub, uid, .FLEET_MGR, fid, own, iat, ex, jti⟩
        .ADMIN tf = false) := by
  constructor
  · intro u tr tf
    rcases u with ⟨sub, uid, role, fleetId, own, iat, ex, jti⟩
    cases role <;> cases tr <;> simp [canManageUser]
  · intro sub uid fid own iat ex jti tf
    simp [canManageUser]

/-- C4 counterexample: a `SUB_ADMIN` actor — system-wide tier per the
claim — is denied management of a plain `FLEET_USER`. -/
theorem canManageUser_subAdmin_denied :
    canManageUser
      { sub := "sa@x", userId := "u2", role := .SUB_ADMIN, fleetId := none
        ownedRegulatorIds := [], iat := 0, exp := 0, jti := "j" }
      .FLEET_USER (some "f1") = false := by decide

/-- C5 (amended): `canAccessFleet` holds exactly for `ADMIN`/`SUB_ADMIN`,
or for `FLEET_MGR`/`SUB_FLEET_MGR` whose fleet scope equals the target
fleet; `FLEET_USER` is denied even on a matching fleet. -/
theorem canAccessFleet_characterization :
    ∀ (u : JwtPayload) (fid : String),
      canAccessFleet u fid = true ↔
        (u.role = .ADMIN ∨ u.role = .SUB_ADMIN ∨
          ((u.role = .FLEET_MGR ∨ u.role = .SUB_FLEET_MGR)
            ∧ u.fleetId = some fid)) := by
  intro u fid
  rcases u with ⟨sub, uid, role, fleetId, own, iat, ex, jti⟩
  cases role <;> simp [canAccessFleet]

/-- C5 counterexample: a `FLEET_USER` scoped to fleet `f1` — fleet-scoped
tier per the claim — is denied access to fleet `f1`. -/
theorem canAccessFleet_fleetUser_denied :
    canAccessFleet
      { sub := "fu@x", userId := "u3", role := .FLEET_USER
        fleetId := some "f1", ownedRegulatorIds := [], iat := 0, exp := 0
        jti := "j" }
      "f1" = false := by decide

/-- C9: the password policy checks exactly the six rules (length within
8..128, an uppercase letter, a lowercase letter, a digit, a special
character), every violated rule contributes its own distinct message with
no short-circuiting, `"StrongPass123!"` passes with zero errors, and
`"weak"` fails with at least two distinct errors. -/
theorem validatePasswordStrength_policy :
    (∀ s : String,
      (validatePasswordStrength s).valid = true ↔
        (8 ≤ s.length ∧ s.length ≤ 128
          ∧ s.data.any Char.isUpper = true
          ∧ s.data.any Char.isLower = true
          ∧ s.data.any Char.isDigit = true
          ∧ s.data.any (fun c => c ∈ specialChars) = true))
    ∧ (∀ s : String,
      ("Password must be at least 8 characters long"
          ∈ (validatePasswordStrength s).errors ↔ s.length < 8)
      ∧ ("Password must be at most 128 characters long"
          ∈ (validatePasswordStrength s).errors ↔ 128 < s.length)
      ∧ ("Password must contain at least one uppercase letter"
          ∈ (validatePasswordStrength s).errors
            ↔ ¬s.data.any Char.isUpper = true)
      ∧ ("Password must contain at least one lowercase letter"
          ∈ (validatePasswordStrength s).errors
            ↔ ¬s.data.any Char.isLower = true)
      ∧ ("Password must contain at least one number"
          ∈ (validatePasswordStrength s).errors
            ↔ ¬s.data.any Char.isDigit = true)
      ∧ ("Password must contain at least one special character"
          ∈ (validatePasswordStrength s).errors
            ↔ ¬s.data.any (fun c => c ∈ specialChars) = true))
    ∧ (∀ s : String, (validatePasswordStrength s).errors.Nodup)
    ∧ validatePasswordStrength "StrongPass123!" = ⟨true, []⟩
    ∧ (validatePasswordStrength "weak").valid = false
    ∧ 2 ≤ (validatePasswordStrength "weak").errors.length := by
  refine ⟨?_, ?_, ?_, by decide, by decide, by decide⟩
  · intro s
    unfold validatePasswordStrength
    simp only [List.isEmpty_iff, List.append_eq_nil]
    constructor
    · rintro ⟨⟨⟨⟨⟨h1, h2⟩, h3⟩, h4⟩, h5⟩, h6⟩
      split_ifs at h1 h2 h3 h4 h5 h6
      simp_all
    · rintro ⟨h1, h2, h3, h4, h5, h6⟩
      refine ⟨⟨⟨⟨⟨?_, ?_⟩, ?_⟩, ?_⟩, ?_⟩, ?_⟩ <;>
        split_ifs <;> simp_all <;> try omega
  · intro s
    unfold validatePasswordStrength
    refine ⟨?_, ?_, ?_, ?_, ?_, ?_⟩ <;>
      simp [List.mem_append, mem_ite_singleton, mem_ite_singleton_not]
  · intro s
    exact (validatePasswordStrength_errors_sublist s).nodup (by decide)

/-- `find?` commutes with a map that never changes the predicate's
verdict. -/
theorem find?_map_invariant {α : Type} {l : List α} (f : α → α) (p : α → Bool)
    (hp : ∀ x, p (f x) = p x) :
    (l.map f).find? p = (l.find? p).map f := by
  rw [List.find?_map]
  have h : (p ∘ f) = p := funext hp
  rw [h]

/-- A conditional revocation update never changes the hash/user match
verdict of a ledger row. -/
theorem ledgerMatch_update (h u : String) (cond : LedgerEntry → Bool)
    (v : Option Nat) (x : LedgerEntry) :
    ledgerMatch h u (if cond x then { x with revokedAt := v } else x)
      = ledgerMatch h u x := by
  split <;> rfl

/-- `tokenFamily || uuidv4()` keeps a non-empty existing family. -/
theorem orFreshFamily_of_ne {f : String} (fresh : String) (hf : f ≠ "") :
    orFreshFamily (some f) fresh = f := by
  unfold orFreshFamily strTruthy
  simp [String.isEmpty_iff, hf]

/-- A successful refresh certifies the whole precondition chain: signature
and embedded expiry pass, the ledger row is found, unrevoked and unexpired,
and the user exists and is active. -/
theorem refreshTokens_ok_inv
    {cfg : JwtConfig} {hashTok : SignedToken → String}
    {now : Nat} {jti freshFamily entryId : String}
    {st : AuthState} {t : SignedToken} {resp : TokenRefreshResponse}
    (hok : (refreshTokens cfg hashTok now jti freshFamily entryId st t).2
      = .ok resp) :
    ∃ e user,
      verifyRefreshToken cfg now t = .ok t.payload
      ∧ st.ledger.find? (ledgerMatch (hashTok t) t.payload.userId) = some e
      ∧ e.revokedAt = none
      ∧ ¬ e.expiresAt < now
      ∧ st.users.find? (fun u => u.id == t.payload.userId) = some user
      ∧ user.isActive = true := by
  unfold refreshTokens at hok
  cases hv : verifyRefreshToken cfg now t with
  | error err =>
    rw [hv] at hok
    simp at hok
  | ok pl =>
    obtain ⟨hpl, -, -⟩ := jwtVerify_ok hv
    subst hpl
    rw [hv] at hok
    dsimp only at hok
    cases hfind : st.ledger.find? (ledgerMatch (hashTok t) t.payload.userId) with
    | none =>
      rw [hfind] at hok
      simp at hok
    | some e =>
      rw [hfind] at hok
      dsimp only at hok
      by_cases hrev : e.revokedAt.isSome
      · simp only [hrev, if_true] at hok
        simp at hok
      · rw [if_neg hrev] at hok
        by_cases hexp : e.expiresAt < now
        · rw [if_pos hexp] at hok
          simp at hok
        · rw [if_neg hexp] at hok
          cases hu : st.users.find? (fun u => u.id == t.payload.userId) with
          | none =>
            rw [hu] at hok
            simp at hok
          | some user =>
            rw [hu] at hok
            dsimp only at hok
            cases hact : user.isActive with
            | false =>
              simp only [hact, Bool.not_false, if_true] at hok
              simp at hok
            | true =>
              exact ⟨e, user, rfl, rfl, by simpa using hrev, hexp, rfl, hact⟩

/-- On the success path, the refresh call computes exactly this rotation:
the found row revoked by id, and the new pair's row appended under the
found row's family. -/
theorem refreshTokens_run_success
    {cfg : JwtConfig} {hashTok : SignedToken → String}
    {now : Nat} {jti freshFamily entryId : String}
    {st : AuthState} {t : SignedToken} {e : LedgerEntry} {user : UserRec}
    (hv : verifyRefreshToken cfg now t = .ok t.payload)
    (hfind : st.ledger.find? (ledgerMatch (hashTok t) t.payload.userId)
      = some e)
    (hrev : e.revokedAt = none)
    (hexp : ¬ e.expiresAt < now)
    (hu : st.users.find? (fun u => u.id == t.payload.userId) = some user)
    (hact : user.isActive = true) :
    refreshTokens cfg hashTok now jti freshFamily entryId st t =
      (let pair := generateTokenPair cfg now jti freshFamily user.id user.email
        user.role user.fleetId (ownedRegulatorIdsFor st user)
        (some e.tokenFamily)
      ({ st with ledger :=
          (st.ledger.map (fun x =>
            if x.id == e.id then { x with revokedAt := some now } else x))
          ++ [{ id := entryId
                userId := user.id
                tokenHash := hashTok pair.refreshToken
                tokenFamily := pair.tokenFamily
                expiresAt := pair.refreshTokenExpiresAt
                revokedAt := none
                createdAt := now }] },
       .ok { accessToken := pair.accessToken
             refreshToken := pair.refreshToken
             tokenType := "Bearer"
             expiresIn := pair.accessTokenExpiresIn })) := by
  unfold refreshTokens
  rw [hv]
  dsimp only
  rw [hfind]
  dsimp only
  rw [hrev]
  simp only [Option.isSome_none, Bool.false_eq_true, if_false]
  rw [if_neg hexp, hu]
  dsimp only
  simp only [hact, Bool.not_true, Bool.false_eq_true, if_false]

/-- C2: a successful refresh marks the presented token's ledger row revoked
(the same lookup now returns it with a revocation timestamp), the minted
refresh token carries the presented row's token family, and a fresh ledger
row is recorded for the minted token under that same family. -/
theorem refreshTokens_rotation_preserves_family
    (cfg : JwtConfig) (hashTok : SignedToken → String)
    (now : Nat) (jti freshFamily entryId : String)
    (st : AuthState) (t : SignedToken) (e : LedgerEntry)
    (resp : TokenRefreshResponse)
    (hfind : st.ledger.find? (ledgerMatch (hashTok t) t.payload.userId)
      = some e)
    (hfam : e.tokenFamily ≠ "")
    (hok : (refreshTokens cfg hashTok now jti freshFamily entryId st t).2
      = .ok resp) :
    ((refreshTokens cfg hashTok now jti freshFamily entryId st t).1.ledger.find?
        (ledgerMatch (hashTok t) t.payload.userId)
      = some { e with revokedAt := some now })
    ∧ (∃ p : RefreshTokenPayload,
        resp.refreshToken.payload = .refresh p
        ∧ p.tokenFamily = e.tokenFamily
        ∧ p.userId = t.payload.userId)
    ∧ (∃ ne ∈ (refreshTokens cfg hashTok now jti freshFamily entryId st
        t).1.ledger,
        ne.id = entryId
        ∧ ne.userId = t.payload.userId
        ∧ ne.tokenHash = hashTok resp.refreshToken
        ∧ ne.tokenFamily = e.tokenFamily
        ∧ ne.revokedAt = none) := by
  obtain ⟨e', user, hv, hfind', hrev, hexp, hu, hact⟩ :=
    refreshTokens_ok_inv hok
  rw [hfind] at hfind'
  obtain rfl : e = e' := Option.some.inj hfind'
  have huid : user.id = t.payload.userId := by
    have h := List.find?_some hu
    simpa [beq_iff_eq] using h
  have hrun := @refreshTokens_run_success cfg hashTok now jti freshFamily
    entryId st t e user hv hfind hrev hexp hu hact
  rw [hrun] at hok
  dsimp only at hok
  have hresp := Except.ok.inj hok
  subst hresp
  rw [hrun]
  dsimp only
  refine ⟨?_, ?_, ?_⟩
  · rw [List.find?_append]
    rw [find?_map_invariant _ _ (ledgerMatch_update _ _ _ (some now))]
    rw [hfind]
    simp
  · refine ⟨{ sub := user.email
              userId := user.id
              tokenFamily := e.tokenFamily
              iat := now
              exp := now + cfg.refreshExpirySeconds }, ?_, rfl, huid⟩
    dsimp [generateTokenPair, generateRefreshToken]
    rw [orFreshFamily_of_ne _ hfam]
  · refine ⟨_, List.mem_append_right _ (List.mem_singleton_self _), rfl, huid,
      rfl, ?_, rfl⟩
    dsimp [generateTokenPair, generateRefreshToken]
    exact orFreshFamily_of_ne _ hfam

/-- Projecting `tokenHash` through a conditional revocation update. -/
theorem ite_revoke_tokenHash (c : Prop) [Decidable c] (v : Option Nat)
    (x : LedgerEntry) :
    (if c then { x with revokedAt := v } else x).tokenHash = x.tokenHash := by
  split <;> rfl

/-- Projecting `userId` through a conditional revocation update. -/
theorem ite_revoke_userId (c : Prop) [Decidable c] (v : Option Nat)
    (x : LedgerEntry) :
    (if c then { x with revokedAt := v } else x).userId = x.userId := by
  split <;> rfl

/-- Projecting `tokenFamily` through a conditional revocation update. -/
theorem ite_revoke_tokenFamily (c : Prop) [Decidable c] (v : Option Nat)
    (x : LedgerEntry) :
    (if c then { x with revokedAt := v } else x).tokenFamily
      = x.tokenFamily := by
  split <;> rfl

/-- On the reuse path (row found, already revoked), the refresh call
computes exactly the family-wide revocation and the `TOKEN_REVOKED`
error. -/
theorem refreshTokens_run_reuse
    {cfg : JwtConfig} {hashTok : SignedToken → String} {now : Nat}
    {jti freshFamily entryId : String} {st : AuthState} {t : SignedToken}
    {e : LedgerEntry}
    (hv : verifyRefreshToken cfg now t = .ok t.payload)
    (hfind : st.ledger.find? (ledgerMatch (hashTok t) t.payload.userId)
      = some e)
    (hrev : e.revokedAt.isSome = true) :
    refreshTokens cfg hashTok now jti freshFamily entryId st t
      = ({ st with ledger := st.ledger.map (fun x =>
            if x.tokenFamily == e.tokenFamily then
              { x with revokedAt := some now } else x) },
         .error tokenRevokedError) := by
  unfold refreshTokens
  rw [hv]
  dsimp only
  rw [hfind]
  dsimp only
  rw [if_pos hrev]

/-- When every ledger row that matches the presented token is revoked, a
refresh with that token cannot succeed on any path. -/
theorem refreshTokens_all_matches_revoked_fails
    {cfg : JwtConfig} {hashTok : SignedToken → String} {now : Nat}
    {jti freshFamily entryId : String} {st : AuthState} {t : SignedToken}
    (hmatch : ∀ x ∈ st.ledger,
      ledgerMatch (hashTok t) t.payload.userId x = true →
      x.revokedAt.isSome = true) :
    ((refreshTokens cfg hashTok now jti freshFamily entryId st t).2).isOk
      = false := by
  cases hv : verifyRefreshToken cfg now t with
  | error err =>
    unfold refreshTokens
    rw [hv]
    rfl
  | ok pl =>
    have hpl := (jwtVerify_ok hv).1
    subst hpl
    unfold refreshTokens
    rw [hv]
    dsimp only
    cases hfind : st.ledger.find? (ledgerMatch (hashTok t) t.payload.userId)
      with
    | none => rfl
    | some e =>
      dsimp only
      have hrev := hmatch e (List.mem_of_find?_eq_some hfind)
        (List.find?_some hfind)
      rw [if_pos hrev]
      rfl

/-- Reuse path: a refresh call presenting a token whose ledger row is
already revoked revokes the row's whole family and fails with
`TOKEN_REVOKED`. -/
theorem refreshTokens_reuse_revokes_family
    (cfg : JwtConfig) (hashTok : SignedToken → String) (now : Nat)
    (jti freshFamily entryId : String) (st : AuthState) (t : SignedToken)
    (e : LedgerEntry)
    (hv : verifyRefreshToken cfg now t = .ok t.payload)
    (hfind : st.ledger.find? (ledgerMatch (hashTok t) t.payload.userId)
      = some e)
    (hrev : e.revokedAt.isSome = true) :
    (refreshTokens cfg hashTok now jti freshFamily entryId st t).2
        = .error tokenRevokedError
      ∧ ∀ x ∈ (refreshTokens cfg hashTok now jti freshFamily entryId st
          t).1.ledger,
          x.tokenFamily = e.tokenFamily → x.revokedAt = some now := by
  have hrun := @refreshTokens_run_reuse cfg hashTok now jti freshFamily
    entryId st t e hv hfind hrev
  rw [hrun]
  refine ⟨rfl, ?_⟩
  intro x hx hfam
  obtain ⟨y, hy, rfl⟩ := List.mem_map.1 hx
  by_cases h : y.tokenFamily == e.tokenFamily
  · simp [h]
  · exfalso
    rw [if_neg (by simpa using h)] at hfam
    exact h (by simp [beq_iff_eq, hfam])

/-- Scenario: rotate once, then replay the original raw token — the replay
triggers family revocation and fails with `TOKEN_REVOKED`; a further
refresh using the first rotation's output token also fails. -/
theorem refreshTokens_replay_scenario
    (cfg : JwtConfig) (hashTok : SignedToken → String)
    (now1 now2 now3 : Nat) (j1 f1 id1 j2 f2 id2 j3 f3 id3 : String)
    (st0 : AuthState) (t0 : SignedToken) (resp : TokenRefreshResponse)
    (hok1 : (refreshTokens cfg hashTok now1 j1 f1 id1 st0 t0).2 = .ok resp)
    (hfams : ∀ x ∈ st0.ledger, x.tokenFamily ≠ "")
    (hfresh : ∀ x ∈ st0.ledger, x.tokenHash ≠ hashTok resp.refreshToken)
    (hv2 : verifyRefreshToken cfg now2 t0 = .ok t0.payload) :
    (refreshTokens cfg hashTok now2 j2 f2 id2
        (refreshTokens cfg hashTok now1 j1 f1 id1 st0 t0).1 t0).2
      = .error tokenRevokedError
    ∧ ((refreshTokens cfg hashTok now3 j3 f3 id3
        (refreshTokens cfg hashTok now2 j2 f2 id2
          (refreshTokens cfg hashTok now1 j1 f1 id1 st0 t0).1 t0).1
        resp.refreshToken).2).isOk = false := by
  obtain ⟨e0, user, hv1, hfind0, hrev0, hexp0, hu, hact⟩ :=
    refreshTokens_ok_inv hok1
  have huid : user.id = t0.payload.userId := by
    simpa [beq_iff_eq] using List.find?_some hu
  have hfam0 : e0.tokenFamily ≠ "" :=
    hfams e0 (List.mem_of_find?_eq_some hfind0)
  have hrun1 := @refreshTokens_run_success cfg hashTok now1 j1 f1 id1 st0 t0
    e0 user hv1 hfind0 hrev0 hexp0 hu hact
  rw [hrun1] at hok1
  dsimp only at hok1
  have hresp := Except.ok.inj hok1
  subst hresp
  rw [hrun1]
  dsimp only
  dsimp only at hfresh
  have hfam1 : (generateTokenPair cfg now1 j1 f1 user.id user.email user.role
      user.fleetId (ownedRegulatorIdsFor st0 user)
      (some e0.tokenFamily)).tokenFamily = e0.tokenFamily := by
    dsimp [generateTokenPair, generateRefreshToken]
    exact orFreshFamily_of_ne _ hfam0
  have hfind1 : List.find? (ledgerMatch (hashTok t0) t0.payload.userId)
      ((st0.ledger.map (fun x =>
          if x.id == e0.id then { x with revokedAt := some now1 } else x))
        ++ [{ id := id1
              userId := user.id
              tokenHash := hashTok (generateTokenPair cfg now1 j1 f1 user.id
                user.email user.role user.fleetId
                (ownedRegulatorIdsFor st0 user)
                (some e0.tokenFamily)).refreshToken
              tokenFamily := (generateTokenPair cfg now1 j1 f1 user.id
                user.email user.role user.fleetId
                (ownedRegulatorIdsFor st0 user)
                (some e0.tokenFamily)).tokenFamily
              expiresAt := (generateTokenPair cfg now1 j1 f1 user.id
                user.email user.role user.fleetId
                (ownedRegulatorIdsFor st0 user)
                (some e0.tokenFamily)).refreshTokenExpiresAt
              revokedAt := none
              createdAt := now1 }])
      = some { e0 with revokedAt := some now1 } := by
    rw [List.find?_append]
    rw [find?_map_invariant _ _ (ledgerMatch_update _ _ _ (some now1))]
    rw [hfind0]
    simp
  have hrun2 := @refreshTokens_run_reuse cfg hashTok now2 j2 f2 id2
    { st0 with ledger := (st0.ledger.map (fun x =>
          if x.id == e0.id then { x with revokedAt := some now1 } else x))
        ++ [{ id := id1
              userId := user.id
              tokenHash := hashTok (generateTokenPair cfg now1 j1 f1 user.id
                user.email user.role user.fleetId
                (ownedRegulatorIdsFor st0 user)
                (some e0.tokenFamily)).refreshToken
              tokenFamily := (generateTokenPair cfg now1 j1 f1 user.id
                user.email user.role user.fleetId
                (ownedRegulatorIdsFor st0 user)
                (some e0.tokenFamily)).tokenFamily
              expiresAt := (generateTokenPair cfg now1 j1 f1 user.id
                user.email user.role user.fleetId
                (ownedRegulatorIdsFor st0 user)
                (some e0.tokenFamily)).refreshTokenExpiresAt
              revokedAt := none
              createdAt := now1 }] }
    t0 { e0 with revokedAt := some now1 } hv2 (by exact hfind1) rfl
  rw [hrun2]
  dsimp only
  refine ⟨rfl, ?_⟩
  apply refreshTokens_all_matches_revoked_fails
  intro x hx hmx
  obtain ⟨y, hy, rfl⟩ := List.mem_map.1 hx
  rcases List.mem_append.1 hy with hyA | hyne
  · obtain ⟨z, hz, rfl⟩ := List.mem_map.1 hyA
    exfalso
    unfold ledgerMatch at hmx
    rw [ite_revoke_tokenHash, ite_revoke_tokenHash] at hmx
    simp only [Bool.and_eq_true, beq_iff_eq] at hmx
    exact absurd hmx.1 (hfresh z hz)
  · rw [List.mem_singleton.1 hyne]
    simp [hfam1]

/-- C1: presenting a refresh token whose ledger row is already revoked
makes the call revoke the row's entire token family and fail; consequently
rotating a token once and replaying the original raw token makes the replay
fail with `TOKEN_REVOKED`, and a subsequent refresh using the first
rotation's output token also fails. -/
theorem refreshTokens_reuse_detection :
    (∀ (cfg : JwtConfig) (hashTok : SignedToken → String) (now : Nat)
        (jti freshFamily entryId : String) (st : AuthState) (t : SignedToken)
        (e : LedgerEntry),
      verifyRefreshToken cfg now t = .ok t.payload →
      st.ledger.find? (ledgerMatch (hashTok t) t.payload.userId) = some e →
      e.revokedAt.isSome = true →
      (refreshTokens cfg hashTok now jti freshFamily entryId st t).2
          = .error tokenRevokedError
        ∧ ∀ x ∈ (refreshTokens cfg hashTok now jti freshFamily entryId st
            t).1.ledger,
            x.tokenFamily = e.tokenFamily → x.revokedAt = some now)
    ∧ (∀ (cfg : JwtConfig) (hashTok : SignedToken → String)
        (now1 now2 now3 : Nat) (j1 f1 id1 j2 f2 id2 j3 f3 id3 : String)
        (st0 : AuthState) (t0 : SignedToken) (resp : TokenRefreshResponse),
      (refreshTokens cfg hashTok now1 j1 f1 id1 st0 t0).2 = .ok resp →
      (∀ x ∈ st0.ledger, x.tokenFamily ≠ "") →
      (∀ x ∈ st0.ledger, x.tokenHash ≠ hashTok resp.refreshToken) →
      verifyRefreshToken cfg now2 t0 = .ok t0.payload →
      (refreshTokens cfg hashTok now2 j2 f2 id2
          (refreshTokens cfg hashTok now1 j1 f1 id1 st0 t0).1 t0).2
        = .error tokenRevokedError
      ∧ ((refreshTokens cfg hashTok now3 j3 f3 id3
          (refreshTokens cfg hashTok now2 j2 f2 id2
            (refreshTokens cfg hashTok now1 j1 f1 id1 st0 t0).1 t0).1
          resp.refreshToken).2).isOk = false) :=
  ⟨refreshTokens_reuse_revokes_family, refreshTokens_replay_scenario⟩

/-- C1 witness: on the concrete one-user store, refreshing an
already-revoked row fails and revokes the family, and the concrete
rotate–replay–reuse chain fails at both later steps. -/
theorem refreshTokens_reuse_detection_witness :
    ((refreshTokens cfg0 hashTok0 5 "ja" "fa" "ea" stRev t0).2
        = .error tokenRevokedError
      ∧ ∀ x ∈ (refreshTokens cfg0 hashTok0 5 "ja" "fa" "ea" stRev
          t0).1.ledger,
          x.tokenFamily = e0rev.tokenFamily → x.revokedAt = some 5)
    ∧ ((refreshTokens cfg0 hashTok0 2 "j3" "f3" "e2"
          (refreshTokens cfg0 hashTok0 1 "j2" "f2" "e1" st0 t0).1 t0).2
        = .error tokenRevokedError
      ∧ ((refreshTokens cfg0 hashTok0 3 "j4" "f4" "e3"
          (refreshTokens cfg0 hashTok0 2 "j3" "f3" "e2"
            (refreshTokens cfg0 hashTok0 1 "j2" "f2" "e1" st0 t0).1 t0).1
          resp0.refreshToken).2).isOk = false) :=
  ⟨refreshTokens_reuse_detection.1 cfg0 hashTok0 5 "ja" "fa" "ea" stRev t0
      e0rev rfl rfl (by decide),
   refreshTokens_reuse_detection.2 cfg0 hashTok0 1 2 3 "j2" "f2" "e1" "j3"
      "f3" "e2" "j4" "f4" "e3" st0 t0 resp0 rfl (by decide)
      (by decide) rfl⟩

/-- C2 witness: the concrete successful refresh of `t0` in `st0` marks the
original row revoked, keeps family `fam` on the minted token, and records
the new row. -/
theorem refreshTokens_rotation_preserves_family_witness :
    ((refreshTokens cfg0 hashTok0 1 "j2" "f2" "e1" st0 t0).1.ledger.find?
        (ledgerMatch (hashTok0 t0) t0.payload.userId)
      = some { e0 with revokedAt := some 1 })
    ∧ (∃ p : RefreshTokenPayload,
        resp0.refreshToken.payload = .refresh p
        ∧ p.tokenFamily = e0.tokenFamily
        ∧ p.userId = t0.payload.userId)
    ∧ (∃ ne ∈ (refreshTokens cfg0 hashTok0 1 "j2" "f2" "e1" st0 t0).1.ledger,
        ne.id = "e1"
        ∧ ne.userId = t0.payload.userId
        ∧ ne.tokenHash = hashTok0 resp0.refreshToken
        ∧ ne.tokenFamily = e0.tokenFamily
        ∧ ne.revokedAt = none) :=
  refreshTokens_rotation_preserves_family cfg0 hashTok0 1 "j2" "f2" "e1" st0
    t0 e0 resp0 rfl (by decide) rfl

/-- C3: a successful `resetPassword` leaves every ledger row of the reset
user revoked, so any subsequent refresh presenting a token of that user —
in particular any refresh token issued before the reset — fails. -/
theorem resetPassword_revokes_all_sessions
    (hashReset hashPassword : String → String) (now : Nat)
    (st : AuthState) (token newPassword : String) (r : ResetRec) (m : String)
    (cfg : JwtConfig) (hashTok : SignedToken → String) (later : Nat)
    (jti freshFamily entryId : String) (t : SignedToken)
    (hr : st.resets.find? (resetMatch (hashReset token)) = some r)
    (hok : (resetPassword hashReset hashPassword now st token
      newPassword).2 = .ok m)
    (ht : t.payload.userId = r.userId) :
    (∀ x ∈ (resetPassword hashReset hashPassword now st token
        newPassword).1.ledger,
        x.userId = r.userId → x.revokedAt.isSome = true)
    ∧ ((refreshTokens cfg hashTok later jti freshFamily entryId
        (resetPassword hashReset hashPassword now st token newPassword).1
        t).2).isOk = false := by
  by_cases hexp : r.expiresAt < now
  · exfalso
    unfold resetPassword at hok
    rw [hr] at hok
    dsimp only at hok
    rw [if_pos hexp] at hok
    simp at hok
  · cases hval : (validatePasswordStrength newPassword).valid with
    | false =>
      exfalso
      unfold resetPassword at hok
      rw [hr] at hok
      dsimp only at hok
      rw [if_neg hexp] at hok
      simp only [hval, Bool.not_false, if_true] at hok
      simp at hok
    | true =>
      have hrun : resetPassword hashReset hashPassword now st token
          newPassword
          = ({ st with
                users := st.users.map (fun u =>
                  if u.id == r.userId then
                    { u with passwordHash := hashPassword newPassword }
                  else u)
                resets := st.resets.map (fun x =>
                  if x.id == r.id then { x with usedAt := some now } else x)
                ledger := st.ledger.map (fun e =>
                  if e.userId == r.userId && e.revokedAt.isNone then
                    { e with revokedAt := some now } else e) },
             .ok "Password reset successful") := by
        unfold resetPassword
        rw [hr]
        dsimp only
        rw [if_neg hexp]
        simp only [hval, Bool.not_true, Bool.false_eq_true, if_false]
      rw [hrun]
      dsimp only
      have hall : ∀ x ∈ st.ledger.map (fun e =>
          if e.userId == r.userId && e.revokedAt.isNone then
            { e with revokedAt := some now } else e),
          x.userId = r.userId → x.revokedAt.isSome = true := by
        intro x hx hux
        obtain ⟨y, hy, rfl⟩ := List.mem_map.1 hx
        by_cases hc : y.userId == r.userId && y.revokedAt.isNone
        · rw [if_pos hc]
          rfl
        · rw [if_neg hc] at hux ⊢
          have hy1 : (y.userId == r.userId) = true := by
            simp [beq_iff_eq, hux]
          have hy2 : y.revokedAt.isNone = false := by
            cases h2 : y.revokedAt.isNone
            · rfl
            · exact absurd (by simp [hy1, h2]) hc
          simpa [Option.isNone_iff_eq_none, Option.isSome_iff_ne_none]
            using hy2
      refine ⟨hall, ?_⟩
      apply refreshTokens_all_matches_revoked_fails
      intro x hx hmx
      unfold ledgerMatch at hmx
      simp only [Bool.and_eq_true, beq_iff_eq] at hmx
      exact hall x hx (hmx.2.trans ht)

/-- C3 witness: the concrete reset in `stReset` revokes `u1`'s live ledger
row and a subsequent refresh with the pre-reset token `t0` fails. -/
theorem resetPassword_revokes_all_sessions_witness :
    (∀ x ∈ (resetPassword (fun s => s ++ "#") (fun s => s) 1 stReset "rst"
        "StrongPass123!").1.ledger,
        x.userId = pr0.userId → x.revokedAt.isSome = true)
    ∧ ((refreshTokens cfg0 hashTok0 2 "j9" "f9" "e9"
        (resetPassword (fun s => s ++ "#") (fun s => s) 1 stReset "rst"
          "StrongPass123!").1
        t0).2).isOk = false :=
  resetPassword_revokes_all_sessions (fun s => s ++ "#") (fun s => s) 1
    stReset "rst" "StrongPass123!" pr0 "Password reset successful" cfg0
    hashTok0 2 "j9" "f9" "e9" t0 (by decide) rfl rfl

/-- C10: a `login` failure returns the identical `AppError` — same message,
status and code — whether the email matched no active credential or the
email matched but the password comparison failed. -/
theorem login_error_indistinguishable
    (cfg : JwtConfig) (hashTok : SignedToken → String)
    (verifyPassword : String → String → Bool)
    (now : Nat) (jti freshFamily entryId : String)
    (st : AuthState) (email password : String) :
    (st.users.find? (fun u => u.email == email && u.isActive) = none →
      (login cfg hashTok verifyPassword now jti freshFamily entryId st email
        password).2 = .error invalidCredentialsError)
    ∧ (∀ user,
        st.users.find? (fun u => u.email == email && u.isActive) = some user →
        verifyPassword password user.passwordHash = false →
        (login cfg hashTok verifyPassword now jti freshFamily entryId st email
          password).2 = .error invalidCredentialsError) := by
  constructor
  · intro h
    unfold login
    rw [h]
  · intro user h hv
    unfold login
    rw [h]
    simp [hv]

/-- C10 witness: on a concrete one-user store, an unknown email and a wrong
password produce the very same error value. -/
theorem login_error_indistinguishable_witness :
    (login cfg0 (fun _ => "h") (fun _ _ => false) 0 "j" "f" "e" c10State
      "b@x" "pw").2 = .error invalidCredentialsError
    ∧ (login cfg0 (fun _ => "h") (fun _ _ => false) 0 "j" "f" "e" c10State
      "a@x" "pw").2 = .error invalidCredentialsError :=
  ⟨(login_error_indistinguishable cfg0 (fun _ => "h") (fun _ _ => false) 0
      "j" "f" "e" c10State "b@x" "pw").1 (by decide),
   (login_error_indistinguishable cfg0 (fun _ => "h") (fun _ _ => false) 0
      "j" "f" "e" c10State "a@x" "pw").2 c10User (by decide) rfl⟩

/-- C8: a refresh token minted by `generateRefreshToken` passes
`verifyAccessToken` (both kinds are signed with `config.jwt.secret` and the
verifier never inspects a type marker), returning the refresh payload. -/
theorem verifyAccessToken_accepts_refresh_tokens
    (cfg : JwtConfig) (now now' : Nat) (freshFamily userId email : String)
    (tokenFamily : Option String)
    (h : now' < now + cfg.refreshExpirySeconds) :
    verifyAccessToken cfg now'
        (generateRefreshToken cfg now freshFamily userId email tokenFamily).1
      = .ok (.refresh
          { sub := email, userId := userId
            tokenFamily := orFreshFamily tokenFamily freshFamily
            iat := now, exp := now + cfg.refreshExpirySeconds }) := by
  unfold verifyAccessToken jwtVerify generateRefreshToken
  simp [TokenPayload.exp]
  omega

/-- C8 witness: at a concrete configuration and clock, the minted refresh
token is accepted by the access-token verifier. -/
theorem verifyAccessToken_accepts_refresh_tokens_witness :
    verifyAccessToken cfg0 1
        (generateRefreshToken cfg0 0 "fam1" "u1" "a@x" none).1
      = .ok (.refresh
          { sub := "a@x", userId := "u1"
            tokenFamily := orFreshFamily none "fam1"
            iat := 0, exp := 0 + cfg0.refreshExpirySeconds }) :=
  verifyAccessToken_accepts_refresh_tokens cfg0 0 1 "fam1" "u1" "a@x" none
    (by decide)

/-- C6: the device-channel subscribe path performs no authorization check —
`canAccessRegulator` denies this actor for the device, yet the handler adds
the connection to the device channel's subscriber set and acks
`SUBSCRIBED`. -/
theorem handleSubscribe_regulator_skips_authorization :
    canAccessRegulator c6User (some "f1") (some "ownerB") = false
    ∧ (handleSubscribe c6Hub c6Client c6Payload).1.regulatorSubscriptions
        = [("r1", ["c1"])]
    ∧ (handleSubscribe c6Hub c6Client c6Payload).2
        = .subscribed "regulator" none (some "r1") := by
  refine ⟨by decide, by decide, by decide⟩

/-- A tagged key starts with its tag. -/
theorem hasTag_self_append (tag s : String) : hasTag tag (tag ++ s) = true := by
  unfold hasTag
  rw [String.data_append]
  simp [List.isPrefixOf_iff_prefix, List.prefix_append]

/-- Character data of the fleet tag. -/
theorem fleet_data : "fleet:".data = ['f', 'l', 'e', 'e', 't', ':'] := rfl

/-- Character data of the regulator tag. -/
theorem regulator_data :
    "regulator:".data = ['r', 'e', 'g', 'u', 'l', 'a', 't', 'o', 'r', ':'] :=
  rfl

/-- A regulator key never starts with the fleet tag. -/
theorem hasTag_fleet_reg (r : String) :
    hasTag "fleet:" ("regulator:" ++ r) = false := by
  unfold hasTag
  rw [String.data_append, fleet_data, regulator_data]
  simp [List.isPrefixOf]

/-- Stripping a tag from a tagged key recovers the id. -/
theorem stripTag_self_append (tag s : String) :
    stripTag tag (tag ++ s) = s := by
  unfold stripTag
  rw [String.data_append, List.drop_left]

/-- A string that starts with a tag is the tag followed by its strip. -/
theorem tag_recover {tag sub : String} (h : hasTag tag sub = true) :
    tag ++ stripTag tag sub = sub := by
  unfold hasTag at h
  rw [List.isPrefixOf_iff_prefix] at h
  obtain ⟨rest, hrest⟩ := h
  unfold stripTag
  rw [← hrest, List.drop_left]
  apply String.ext
  rw [String.data_append, ← hrest]

/-- Tagged keys are injective in the id. -/
theorem tagKey_inj {tag a b : String} (h : tag ++ a = tag ++ b) : a = b := by
  have h2 := congrArg String.data h
  rw [String.data_append, String.data_append] at h2
  exact String.ext (List.append_cancel_left h2)

/-- Fleet keys and regulator keys never collide. -/
theorem fleet_ne_reg (f r : String) :
    ("fleet:" ++ f) ≠ ("regulator:" ++ r) := by
  intro h
  have h2 := congrArg (hasTag "fleet:") h
  rw [hasTag_self_append, hasTag_fleet_reg] at h2
  cases h2



/-- A successful `mapGet` names an entry of the list. -/
theorem mapGet_some_mem {β : Type} {m : List (String × β)} {k : String}
    {v : β} (h : mapGet m k = some v) : (k, v) ∈ m := by
  unfold mapGet at h
  cases hf : m.find? (fun kv => kv.1 == k) with
  | none => rw [hf] at h; cases h
  | some kv =>
    rw [hf] at h
    have hk := List.find?_some hf
    have hmem := List.mem_of_find?_eq_some hf
    have h2 : kv.2 = v := Option.some.inj h
    have h1 : kv.1 = k := by simpa [beq_iff_eq] using hk
    have : kv = (k, v) := by
      cases kv
      simp_all
    rwa [this] at hmem

/-- `mapGet` misses exactly when no entry carries the key. -/
theorem mapGet_eq_none_iff {β : Type} {m : List (String × β)} {k : String} :
    mapGet m k = none ↔ ∀ v, (k, v) ∉ m := by
  unfold mapGet
  constructor
  · intro h v hv
    cases hf : m.find? (fun kv => kv.1 == k) with
    | none =>
      have := List.find?_eq_none.1 hf (k, v) hv
      simp at this
    | some kv => rw [hf] at h; cases h
  · intro h
    cases hf : m.find? (fun kv => kv.1 == k) with
    | none => rfl
    | some kv =>
      have hk := List.find?_some hf
      have hmem := List.mem_of_find?_eq_some hf
      have h1 : kv.1 = k := by simpa [beq_iff_eq] using hk
      exfalso
      refine h kv.2 ?_
      have : kv = (k, kv.2) := by cases kv; simp_all
      rwa [this] at hmem

/-- `Map.get` after `Map.set` at the same key. -/
theorem mapGet_mapSet_self {β : Type} (m : List (String × β)) (k : String)
    (v : β) : mapGet (mapSet m k v) k = some v := by
  unfold mapSet
  split
  · rename_i hsome
    unfold mapGet
    rw [find?_map_invariant (fun kv => if kv.1 == k then (k, v) else kv)
      (fun kv => kv.1 == k) ?hp]
    case hp =>
      intro kv
      by_cases h : kv.1 == k <;> simp [h]
    obtain ⟨kv0, hkv0⟩ := Option.isSome_iff_exists.1 hsome
    rw [hkv0]
    have hk := List.find?_some hkv0
    have h1 : kv0.1 = k := by simpa [beq_iff_eq] using hk
    simp [h1]
  · unfold mapGet
    rename_i hnone
    rw [List.find?_append]
    have h1 : m.find? (fun kv => kv.1 == k) = none := by
      cases h : m.find? (fun kv => kv.1 == k)
      · rfl
      · rw [h] at hnone; simp at hnone
    rw [h1]
    simp [List.find?]

/-- `Map.set` leaves other keys untouched. -/
theorem mapGet_mapSet_other {β : Type} (m : List (String × β))
    {k k' : String} (v : β) (h : k' ≠ k) :
    mapGet (mapSet m k v) k' = mapGet m k' := by
  unfold mapSet
  split
  · unfold mapGet
    rw [find?_map_invariant (fun kv => if kv.1 == k then (k, v) else kv)
      (fun kv => kv.1 == k') ?hp]
    case hp =>
      intro kv
      by_cases hk : kv.1 == k
      · have : kv.1 = k := by simpa [beq_iff_eq] using hk
        simp [hk, this, beq_iff_eq, h, Ne.symm h]
      · simp [hk]
    cases hf : m.find? (fun kv => kv.1 == k') with
    | none => rfl
    | some kv0 =>
      have hk' := List.find?_some hf
      have h1 : kv0.1 = k' := by simpa [beq_iff_eq] using hk'
      simp [h1, h]
  · unfold mapGet
    rw [List.find?_append]
    have hkk : (k == k') = false := by
      simp only [beq_eq_false_iff_ne, ne_eq]
      exact fun hh => h hh.symm
    have h2 : List.find? (fun kv => kv.1 == k') [(k, v)] = none := by
      simp [List.find?, hkk]
    rw [h2]
    cases m.find? (fun kv => kv.1 == k') <;> rfl

/-- `Map.get` after `Map.delete` at the same key. -/
theorem mapGet_mapDelete_self {β : Type} (m : List (String × β))
    (k : String) : mapGet (mapDelete m k) k = none := by
  unfold mapGet mapDelete
  have h1 : List.find? (fun kv => kv.1 == k)
      (m.filter (fun kv => kv.1 != k)) = none := by
    rw [List.find?_eq_none]
    intro kv hkv
    have := (List.mem_filter.1 hkv).2
    simp_all [bne]
  rw [h1]
  rfl

/-- Entries surviving `Map.delete`. -/
theorem mem_mapDelete_elim {β : Type} {m : List (String × β)}
    {k k' : String} {v : β} (h : (k', v) ∈ mapDelete m k) :
    (k', v) ∈ m ∧ k' ≠ k := by
  unfold mapDelete at h
  have h1 := List.mem_filter.1 h
  refine ⟨h1.1, ?_⟩
  have := h1.2
  simpa [bne, beq_iff_eq] using this

/-- Entries of a map after `Map.set`. -/
theorem mem_mapSet_elim {β : Type} {m : List (String × β)} {k k' : String}
    {v v' : β} (h : (k', v') ∈ mapSet m k v) :
    (k' = k ∧ v' = v) ∨ ((k', v') ∈ m ∧ k' ≠ k) := by
  unfold mapSet at h
  split at h
  · obtain ⟨kv0, hkv0, himg⟩ := List.mem_map.1 h
    by_cases hk : kv0.1 == k
    · rw [if_pos hk] at himg
      injection himg with hk1 hv1
      exact Or.inl ⟨hk1.symm, hv1.symm⟩
    · rw [if_neg hk] at himg
      right
      rw [himg] at hkv0 hk
      refine ⟨hkv0, ?_⟩
      simpa [beq_iff_eq] using hk
  · rename_i hnone
    rcases List.mem_append.1 h with hm | hs
    · right
      refine ⟨hm, ?_⟩
      intro hkk
      subst hkk
      have h2 : (m.find? (fun kv => kv.1 == k')).isSome = true :=
        List.find?_isSome.2 ⟨(k', v'), hm, by simp⟩
      simp_all
    · left
      have h3 := List.mem_singleton.1 hs
      injection h3 with hk1 hv1
      exact ⟨hk1, hv1⟩



/-- Reading the aliased client back after a subscription mutation. -/
theorem mapGet_updateSubs_self (m : List (String × WSClient)) (cid : String)
    (f : List String → List String) :
    mapGet (updateSubs m cid f) cid
      = (mapGet m cid).map
          (fun c => { c with subscriptions := f c.subscriptions }) := by
  induction m with
  | nil => rfl
  | cons kv t ih =>
    by_cases h : kv.1 == cid
    · have h1 : kv.1 = cid := by simpa [beq_iff_eq] using h
      simp [updateSubs, mapGet, List.find?, h, h1]
    · simp only [updateSubs, List.map_cons, if_neg h] at ih ⊢
      simp only [mapGet, List.find?, h] at ih ⊢
      exact ih

/-- A subscription mutation leaves other registry entries untouched. -/
theorem mapGet_updateSubs_other (m : List (String × WSClient))
    {cid k : String} (f : List String → List String) (h : k ≠ cid) :
    mapGet (updateSubs m cid f) k = mapGet m k := by
  induction m with
  | nil => rfl
  | cons kv t ih =>
    by_cases hc : kv.1 == cid
    · have h1 : kv.1 = cid := by simpa [beq_iff_eq] using hc
      have h2 : (kv.1 == k) = false := by
        simp [beq_iff_eq, h1]
        exact fun hh => h hh.symm
      simp only [updateSubs, List.map_cons, if_pos hc] at ih ⊢
      simp only [mapGet, List.find?, h2] at ih ⊢
      exact ih
    · simp only [updateSubs, List.map_cons, if_neg hc] at ih ⊢
      by_cases hk : kv.1 == k
      · simp [mapGet, List.find?, hk]
      · simp only [mapGet, List.find?, hk] at ih ⊢
        exact ih

/-- `Set.add` makes its element a member. -/
theorem mem_setAdd_self (s : List String) (x : String) : x ∈ setAdd s x := by
  unfold setAdd
  split
  · rename_i h
    simpa using h
  · simp

/-- `Set.add` keeps the existing members. -/
theorem mem_setAdd_of_mem {s : List String} {y : String} (x : String)
    (h : y ∈ s) : y ∈ setAdd s x := by
  unfold setAdd
  split
  · exact h
  · exact List.mem_append_left _ h

/-- Members after `Set.add`. -/
theorem mem_setAdd_elim {s : List String} {x y : String}
    (h : y ∈ setAdd s x) : y ∈ s ∨ y = x := by
  unfold setAdd at h
  split at h
  · exact Or.inl h
  · rcases List.mem_append.1 h with h1 | h1
    · exact Or.inl h1
    · exact Or.inr (List.mem_singleton.1 h1)

/-- `Set.delete` removes its element. -/
theorem not_mem_setDelete_self (s : List String) (x : String) :
    x ∉ setDelete s x := by
  unfold setDelete
  intro h
  have := (List.mem_filter.1 h).2
  simp [bne] at this

/-- Members after `Set.delete`. -/
theorem mem_setDelete_elim {s : List String} {x y : String}
    (h : y ∈ setDelete s x) : y ∈ s ∧ y ≠ x := by
  unfold setDelete at h
  have h1 := List.mem_filter.1 h
  refine ⟨h1.1, ?_⟩
  have := h1.2
  simpa [bne, beq_iff_eq] using this

/-- `Set.delete` keeps the other members. -/
theorem mem_setDelete_of_mem {s : List String} {x y : String}
    (h : y ∈ s) (hne : y ≠ x) : y ∈ setDelete s x := by
  unfold setDelete
  refine List.mem_filter.2 ⟨h, ?_⟩
  simpa [bne, beq_iff_eq] using hne



/-- Registry effect of `subscribeToFleet`. -/
theorem subFleet_clients (st : HubState) (c : WSClient) (fid : String) :
    (subscribeToFleet st c fid).clients
      = updateSubs st.clients c.id (fun subs => setAdd subs ("fleet:" ++ fid)) :=
  rfl

/-- `subscribeToFleet` does not touch device channels. -/
theorem subFleet_regSubs (st : HubState) (c : WSClient) (fid : String) :
    (subscribeToFleet st c fid).regulatorSubscriptions
      = st.regulatorSubscriptions := rfl

/-- Registry effect of `subscribeToRegulator`. -/
theorem subReg_clients (st : HubState) (c : WSClient) (rid : String) :
    (subscribeToRegulator st c rid).clients
      = updateSubs st.clients c.id
          (fun subs => setAdd subs ("regulator:" ++ rid)) :=
  rfl

/-- `subscribeToRegulator` does not touch fleet channels. -/
theorem subReg_fleetSubs (st : HubState) (c : WSClient) (rid : String) :
    (subscribeToRegulator st c rid).fleetSubscriptions
      = st.fleetSubscriptions := rfl

/-- Registry effect of `unsubscribeFromFleet`. -/
theorem unsubFleet_clients (st : HubState) (c : WSClient) (fid : String) :
    (unsubscribeFromFleet st c fid).clients
      = updateSubs st.clients c.id
          (fun subs => setDelete subs ("fleet:" ++ fid)) := by
  unfold unsubscribeFromFleet
  cases hm : mapGet st.fleetSubscriptions fid <;> simp [hm]
  split <;> rfl

/-- `unsubscribeFromFleet` does not touch device channels. -/
theorem unsubFleet_regSubs (st : HubState) (c : WSClient) (fid : String) :
    (unsubscribeFromFleet st c fid).regulatorSubscriptions
      = st.regulatorSubscriptions := by
  unfold unsubscribeFromFleet
  cases hm : mapGet st.fleetSubscriptions fid <;> simp [hm]
  split <;> rfl

/-- Registry effect of `unsubscribeFromRegulator`. -/
theorem unsubReg_clients (st : HubState) (c : WSClient) (rid : String) :
    (unsubscribeFromRegulator st c rid).clients
      = updateSubs st.clients c.id
          (fun subs => setDelete subs ("regulator:" ++ rid)) := by
  unfold unsubscribeFromRegulator
  cases hm : mapGet st.regulatorSubscriptions rid <;> simp [hm]
  split <;> rfl

/-- `unsubscribeFromRegulator` does not touch fleet channels. -/
theorem unsubReg_fleetSubs (st : HubState) (c : WSClient) (rid : String) :
    (unsubscribeFromRegulator st c rid).fleetSubscriptions
      = st.fleetSubscriptions := by
  unfold unsubscribeFromRegulator
  cases hm : mapGet st.regulatorSubscriptions rid <;> simp [hm]
  split <;> rfl

/-- Fleet-channel entries after `subscribeToFleet`. -/
theorem subFleet_entries {st : HubState} {c : WSClient} {fid₀ fid : String}
    {subs : List String}
    (h : (fid, subs) ∈ (subscribeToFleet st c fid₀).fleetSubscriptions) :
    ((fid, subs) ∈ st.fleetSubscriptions ∧ fid ≠ fid₀)
    ∨ (fid = fid₀
        ∧ subs = setAdd ((mapGet st.fleetSubscriptions fid₀).getD []) c.id) := by
  have h' : (fid, subs) ∈ mapSet st.fleetSubscriptions fid₀
      (setAdd ((mapGet st.fleetSubscriptions fid₀).getD []) c.id) := h
  rcases mem_mapSet_elim h' with ⟨h1, h2⟩ | ⟨h1, h2⟩
  · exact Or.inr ⟨h1, h2⟩
  · exact Or.inl ⟨h1, h2⟩

/-- Fleet-channel entries after `unsubscribeFromFleet`. -/
theorem unsubFleet_entries {st : HubState} {c : WSClient} {fid₀ fid : String}
    {subs : List String}
    (h : (fid, subs) ∈ (unsubscribeFromFleet st c fid₀).fleetSubscriptions) :
    ((fid, subs) ∈ st.fleetSubscriptions ∧ fid ≠ fid₀)
    ∨ (fid = fid₀ ∧ ∃ subs₀,
        mapGet st.fleetSubscriptions fid₀ = some subs₀
        ∧ subs = setDelete subs₀ c.id) := by
  unfold unsubscribeFromFleet at h
  cases hm : mapGet st.fleetSubscriptions fid₀ with
  | none =>
    rw [hm] at h
    dsimp only at h
    left
    refine ⟨h, ?_⟩
    intro hf
    subst hf
    exact (mapGet_eq_none_iff.1 hm) subs h
  | some subscribers =>
    rw [hm] at h
    dsimp only at h
    split at h
    · left
      exact mem_mapDelete_elim h
    · rcases mem_mapSet_elim h with ⟨h1, h2⟩ | ⟨h1, h2⟩
      · exact Or.inr ⟨h1, subscribers, rfl, h2⟩
      · exact Or.inl ⟨h1, h2⟩

/-- Device-channel entries after `subscribeToRegulator`. -/
theorem subReg_entries {st : HubState} {c : WSClient} {rid₀ rid : String}
    {subs : List String}
    (h : (rid, subs) ∈ (subscribeToRegulator st c rid₀).regulatorSubscriptions) :
    ((rid, subs) ∈ st.regulatorSubscriptions ∧ rid ≠ rid₀)
    ∨ (rid = rid₀
        ∧ subs = setAdd ((mapGet st.regulatorSubscriptions rid₀).getD [])
            c.id) := by
  have h' : (rid, subs) ∈ mapSet st.regulatorSubscriptions rid₀
      (setAdd ((mapGet st.regulatorSubscriptions rid₀).getD []) c.id) := h
  rcases mem_mapSet_elim h' with ⟨h1, h2⟩ | ⟨h1, h2⟩
  · exact Or.inr ⟨h1, h2⟩
  · exact Or.inl ⟨h1, h2⟩

/-- Device-channel entries after `unsubscribeFromRegulator`. -/
theorem unsubReg_entries {st : HubState} {c : WSClient} {rid₀ rid : String}
    {subs : List String}
    (h : (rid, subs) ∈
      (unsubscribeFromRegulator st c rid₀).regulatorSubscriptions) :
    ((rid, subs) ∈ st.regulatorSubscriptions ∧ rid ≠ rid₀)
    ∨ (rid = rid₀ ∧ ∃ subs₀,
        mapGet st.regulatorSubscriptions rid₀ = some subs₀
        ∧ subs = setDelete subs₀ c.id) := by
  unfold unsubscribeFromRegulator at h
  cases hm : mapGet st.regulatorSubscriptions rid₀ with
  | none =>
    rw [hm] at h
    dsimp only at h
    left
    refine ⟨h, ?_⟩
    intro hf
    subst hf
    exact (mapGet_eq_none_iff.1 hm) subs h
  | some subscribers =>
    rw [hm] at h
    dsimp only at h
    split at h
    · left
      exact mem_mapDelete_elim h
    · rcases mem_mapSet_elim h with ⟨h1, h2⟩ | ⟨h1, h2⟩
      · exact Or.inr ⟨h1, subscribers, rfl, h2⟩
      · exact Or.inl ⟨h1, h2⟩



/-- `Map.delete` leaves other keys untouched. -/
theorem mapGet_mapDelete_other {β : Type} (m : List (String × β))
    {k k' : String} (h : k' ≠ k) :
    mapGet (mapDelete m k) k' = mapGet m k' := by
  induction m with
  | nil => rfl
  | cons kv t ih =>
    by_cases hk : kv.1 == k
    · have h1 : kv.1 = k := by simpa [beq_iff_eq] using hk
      have h2 : (kv.1 == k') = false := by
        simp [beq_iff_eq, h1]
        exact fun hh => h hh.symm
      simp only [mapDelete, List.filter] at ih ⊢
      rw [show (kv.1 != k) = false by simp [bne, hk]]
      simp only [mapGet, List.find?, h2] at ih ⊢
      exact ih
    · simp only [mapDelete, List.filter] at ih ⊢
      rw [show (kv.1 != k) = true by simp [bne, hk]]
      by_cases hk' : kv.1 == k'
      · simp [mapGet, List.find?, hk']
      · simp only [mapGet, List.find?, hk'] at ih ⊢
        exact ih

/-- Subscription mutations keep registry keys consistent. -/
theorem clientsKey_updateSubs {m : List (String × WSClient)} {cid0 : String}
    {f : List String → List String}
    (hkey : ∀ cid c, mapGet m cid = some c → c.id = cid) :
    ∀ cid c, mapGet (updateSubs m cid0 f) cid = some c → c.id = cid := by
  intro cid c h
  by_cases hc : cid = cid0
  · subst hc
    rw [mapGet_updateSubs_self] at h
    cases hm : mapGet m cid with
    | none => rw [hm] at h; cases h
    | some c0 =>
      rw [hm] at h
      have h2 := Option.some.inj h
      rw [← h2]
      exact hkey cid c0 hm
  · rw [mapGet_updateSubs_other _ f hc] at h
    exact hkey cid c h

/-- A monotone subscription mutation keeps recorded memberships. -/
theorem clients_mem_updateSubs {m : List (String × WSClient)} {cid0 : String}
    {g : List String → List String}
    (hmono : ∀ subs x, x ∈ subs → x ∈ g subs) :
    ∀ cid cl key, mapGet m cid = some cl → key ∈ cl.subscriptions →
    ∃ cl', mapGet (updateSubs m cid0 g) cid = some cl'
      ∧ key ∈ cl'.subscriptions := by
  intro cid cl key h hkey
  by_cases hc : cid = cid0
  · subst hc
    rw [mapGet_updateSubs_self, h]
    exact ⟨_, rfl, hmono _ _ hkey⟩
  · rw [mapGet_updateSubs_other _ _ hc]
    exact ⟨cl, h, hkey⟩

/-- `subscribeToFleet` of a registered client preserves the invariant. -/
theorem HubInv.subFleet {st : HubState} {c : WSClient} {fid : String}
    (hinv : HubInv st) (c₀ : WSClient)
    (hc : mapGet st.clients c.id = some c₀) :
    HubInv (subscribeToFleet st c fid) := by
  constructor
  · rw [subFleet_clients]
    exact clientsKey_updateSubs hinv.clientsKey
  · intro fid' subs' cid hmem hcid
    rw [subFleet_clients]
    rcases subFleet_entries hmem with ⟨h1, -⟩ | ⟨h1, h2⟩
    · obtain ⟨cl, hcl, hkey⟩ := hinv.fleetOwner _ _ _ h1 hcid
      exact clients_mem_updateSubs (fun subs x hx => mem_setAdd_of_mem _ hx)
        _ _ _ hcl hkey
    · subst h1
      subst h2
      rcases mem_setAdd_elim hcid with hcur | hcur
      · cases hm : mapGet st.fleetSubscriptions fid' with
        | none => rw [hm] at hcur; simp at hcur
        | some subs₀ =>
          rw [hm] at hcur
          simp only [Option.getD_some] at hcur
          obtain ⟨cl, hcl, hkey⟩ :=
            hinv.fleetOwner _ _ _ (mapGet_some_mem hm) hcur
          exact clients_mem_updateSubs
            (fun subs x hx => mem_setAdd_of_mem _ hx) _ _ _ hcl hkey
      · subst hcur
        rw [mapGet_updateSubs_self, hc]
        exact ⟨_, rfl, mem_setAdd_self _ _⟩
  · intro rid subs cid hmem hcid
    rw [subFleet_regSubs] at hmem
    obtain ⟨cl, hcl, hkey⟩ := hinv.regOwner _ _ _ hmem hcid
    rw [subFleet_clients]
    exact clients_mem_updateSubs (fun subs x hx => mem_setAdd_of_mem _ hx)
      _ _ _ hcl hkey

/-- `subscribeToRegulator` of a registered client preserves the invariant. -/
theorem HubInv.subReg {st : HubState} {c : WSClient} {rid : String}
    (hinv : HubInv st) (c₀ : WSClient)
    (hc : mapGet st.clients c.id = some c₀) :
    HubInv (subscribeToRegulator st c rid) := by
  constructor
  · rw [subReg_clients]
    exact clientsKey_updateSubs hinv.clientsKey
  · intro fid subs cid hmem hcid
    rw [subReg_fleetSubs] at hmem
    obtain ⟨cl, hcl, hkey⟩ := hinv.fleetOwner _ _ _ hmem hcid
    rw [subReg_clients]
    exact clients_mem_updateSubs (fun subs x hx => mem_setAdd_of_mem _ hx)
      _ _ _ hcl hkey
  · intro rid' subs' cid hmem hcid
    rw [subReg_clients]
    rcases subReg_entries hmem with ⟨h1, -⟩ | ⟨h1, h2⟩
    · obtain ⟨cl, hcl, hkey⟩ := hinv.regOwner _ _ _ h1 hcid
      exact clients_mem_updateSubs (fun subs x hx => mem_setAdd_of_mem _ hx)
        _ _ _ hcl hkey
    · subst h1
      subst h2
      rcases mem_setAdd_elim hcid with hcur | hcur
      · cases hm : mapGet st.regulatorSubscriptions rid' with
        | none => rw [hm] at hcur; simp at hcur
        | some subs₀ =>
          rw [hm] at hcur
          simp only [Option.getD_some] at hcur
          obtain ⟨cl, hcl, hkey⟩ :=
            hinv.regOwner _ _ _ (mapGet_some_mem hm) hcur
          exact clients_mem_updateSubs
            (fun subs x hx => mem_setAdd_of_mem _ hx) _ _ _ hcl hkey
      · subst hcur
        rw [mapGet_updateSubs_self, hc]
        exact ⟨_, rfl, mem_setAdd_self _ _⟩

/-- `unsubscribeFromFleet` preserves the invariant. -/
theorem HubInv.unsubFleet {st : HubState} {c : WSClient} {fid₀ : String}
    (hinv : HubInv st) : HubInv (unsubscribeFromFleet st c fid₀) := by
  constructor
  · rw [unsubFleet_clients]
    exact clientsKey_updateSubs hinv.clientsKey
  · intro fid subs cid hmem hcid
    rw [unsubFleet_clients]
    rcases unsubFleet_entries hmem with ⟨h1, hne⟩ | ⟨h1, subs₀, hm₀, h2⟩
    · obtain ⟨cl, hcl, hkey⟩ := hinv.fleetOwner _ _ _ h1 hcid
      by_cases hcc : cid = c.id
      · subst hcc
        rw [mapGet_updateSubs_self, hcl]
        refine ⟨_, rfl, mem_setDelete_of_mem hkey ?_⟩
        exact fun he => hne (tagKey_inj he)
      · rw [mapGet_updateSubs_other _ _ hcc]
        exact ⟨cl, hcl, hkey⟩
    · subst h1
      subst h2
      obtain ⟨hc₀, hne⟩ := mem_setDelete_elim hcid
      obtain ⟨cl, hcl, hkey⟩ :=
        hinv.fleetOwner _ _ _ (mapGet_some_mem hm₀) hc₀
      rw [mapGet_updateSubs_other _ _ hne]
      exact ⟨cl, hcl, hkey⟩
  · intro rid subs cid hmem hcid
    rw [unsubFleet_regSubs] at hmem
    obtain ⟨cl, hcl, hkey⟩ := hinv.regOwner _ _ _ hmem hcid
    rw [unsubFleet_clients]
    by_cases hcc : cid = c.id
    · subst hcc
      rw [mapGet_updateSubs_self, hcl]
      refine ⟨_, rfl, mem_setDelete_of_mem hkey ?_⟩
      exact fun he => fleet_ne_reg _ _ he.symm
    · rw [mapGet_updateSubs_other _ _ hcc]
      exact ⟨cl, hcl, hkey⟩

/-- `unsubscribeFromRegulator` preserves the invariant. -/
theorem HubInv.unsubReg {st : HubState} {c : WSClient} {rid₀ : String}
    (hinv : HubInv st) : HubInv (unsubscribeFromRegulator st c rid₀) := by
  constructor
  · rw [unsubReg_clients]
    exact clientsKey_updateSubs hinv.clientsKey
  · intro fid subs cid hmem hcid
    rw [unsubReg_fleetSubs] at hmem
    obtain ⟨cl, hcl, hkey⟩ := hinv.fleetOwner _ _ _ hmem hcid
    rw [unsubReg_clients]
    by_cases hcc : cid = c.id
    · subst hcc
      rw [mapGet_updateSubs_self, hcl]
      refine ⟨_, rfl, mem_setDelete_of_mem hkey ?_⟩
      exact fun he => fleet_ne_reg _ _ he
    · rw [mapGet_updateSubs_other _ _ hcc]
      exact ⟨cl, hcl, hkey⟩
  · intro rid subs cid hmem hcid
    rw [unsubReg_clients]
    rcases unsubReg_entries hmem with ⟨h1, hne⟩ | ⟨h1, subs₀, hm₀, h2⟩
    · obtain ⟨cl, hcl, hkey⟩ := hinv.regOwner _ _ _ h1 hcid
      by_cases hcc : cid = c.id
      · subst hcc
        rw [mapGet_updateSubs_self, hcl]
        refine ⟨_, rfl, mem_setDelete_of_mem hkey ?_⟩
        exact fun he => hne (tagKey_inj he)
      · rw [mapGet_updateSubs_other _ _ hcc]
        exact ⟨cl, hcl, hkey⟩
    · subst h1
      subst h2
      obtain ⟨hc₀, hne⟩ := mem_setDelete_elim hcid
      obtain ⟨cl, hcl, hkey⟩ :=
        hinv.regOwner _ _ _ (mapGet_some_mem hm₀) hc₀
      rw [mapGet_updateSubs_other _ _ hne]
      exact ⟨cl, hcl, hkey⟩



/-- Registering a fresh connection preserves the invariant. -/
theorem HubInv.register {st : HubState} (hinv : HubInv st)
    (cid : String) (payload : JwtPayload)
    (hfresh : mapGet st.clients cid = none) :
    HubInv (registerClient st (freshClient cid payload)) := by
  constructor
  · intro cid' c' h
    have hcl : (registerClient st (freshClient cid payload)).clients
        = mapSet st.clients cid (freshClient cid payload) := rfl
    rw [hcl] at h
    by_cases hc : cid' = cid
    · subst hc
      rw [mapGet_mapSet_self] at h
      rw [← Option.some.inj h]
      rfl
    · rw [mapGet_mapSet_other _ _ hc] at h
      exact hinv.clientsKey _ _ h
  · intro fid subs cid' hmem hcid
    obtain ⟨cl, hcl, hkey⟩ := hinv.fleetOwner _ _ _ hmem hcid
    by_cases hc : cid' = cid
    · subst hc
      rw [hfresh] at hcl
      cases hcl
    · refine ⟨cl, ?_, hkey⟩
      have h2 : (registerClient st (freshClient cid payload)).clients
          = mapSet st.clients cid (freshClient cid payload) := rfl
      rw [h2, mapGet_mapSet_other _ _ hc]
      exact hcl
  · intro rid subs cid' hmem hcid
    obtain ⟨cl, hcl, hkey⟩ := hinv.regOwner _ _ _ hmem hcid
    by_cases hc : cid' = cid
    · subst hc
      rw [hfresh] at hcl
      cases hcl
    · refine ⟨cl, ?_, hkey⟩
      have h2 : (registerClient st (freshClient cid payload)).clients
          = mapSet st.clients cid (freshClient cid payload) := rfl
      rw [h2, mapGet_mapSet_other _ _ hc]
      exact hcl

/-- `autoSubscribe` either does nothing or joins one fleet channel. -/
theorem autoSubscribe_state (st : HubState) (c : WSClient) :
    autoSubscribe st c = st
    ∨ ∃ fid, autoSubscribe st c = subscribeToFleet st c fid := by
  unfold autoSubscribe
  cases c.user with
  | none => exact Or.inl rfl
  | some user =>
    dsimp only
    split
    · exact Or.inr ⟨_, rfl⟩
    · exact Or.inl rfl

/-- `handleSubscribe` leaves the state alone or performs one subscribe. -/
theorem handleSubscribe_state (st : HubState) (c : WSClient)
    (payload : SubscribePayload) :
    (handleSubscribe st c payload).1 = st
    ∨ (∃ fid, (handleSubscribe st c payload).1 = subscribeToFleet st c fid)
    ∨ (∃ rid,
        (handleSubscribe st c payload).1 = subscribeToRegulator st c rid) := by
  unfold handleSubscribe
  cases c.user with
  | none => exact Or.inl rfl
  | some user =>
    dsimp only
    split
    · split
      · exact Or.inl rfl
      · exact Or.inr (Or.inl ⟨_, rfl⟩)
    · split
      · exact Or.inr (Or.inr ⟨_, rfl⟩)
      · exact Or.inl rfl

/-- `handleUnsubscribe` leaves the state alone or performs one unsubscribe. -/
theorem handleUnsubscribe_state (st : HubState) (c : WSClient)
    (payload : SubscribePayload) :
    (handleUnsubscribe st c payload).1 = st
    ∨ (∃ fid,
        (handleUnsubscribe st c payload).1 = unsubscribeFromFleet st c fid)
    ∨ (∃ rid,
        (handleUnsubscribe st c payload).1
          = unsubscribeFromRegulator st c rid) := by
  unfold handleUnsubscribe
  split
  · exact Or.inr (Or.inl ⟨_, rfl⟩)
  · split
    · exact Or.inr (Or.inr ⟨_, rfl⟩)
    · exact Or.inl rfl

/-- One unwinding iteration preserves the invariant. -/
theorem inv_unsubStep {s : HubState} {c : WSClient} (hinv : HubInv s)
    (sub : String) : HubInv (unsubStep c s sub) := by
  unfold unsubStep
  split
  · exact hinv.unsubFleet
  · split
    · exact hinv.unsubReg
    · exact hinv

/-- The whole unwinding loop preserves the invariant. -/
theorem HubInv.foldUnsub {c : WSClient} :
    ∀ (l : List String) (s : HubState), HubInv s →
    HubInv (l.foldl (unsubStep c) s) := by
  intro l
  induction l with
  | nil => intro s hinv; exact hinv
  | cons sub t ih =>
    intro s hinv
    rw [List.foldl_cons]
    exact ih _ (inv_unsubStep hinv sub)



/-- After unwinding a list of keys that covers every channel membership
of the client, the client's id is in no channel's subscriber set. -/
theorem foldl_unsub_clears (c : WSClient) :
    ∀ (l : List String) (s : HubState),
    (∀ fid, FleetSubscribed s fid c.id → ("fleet:" ++ fid) ∈ l) →
    (∀ rid, RegSubscribed s rid c.id → ("regulator:" ++ rid) ∈ l) →
    (∀ fid, ¬ FleetSubscribed (l.foldl (unsubStep c) s) fid c.id)
    ∧ (∀ rid, ¬ RegSubscribed (l.foldl (unsubStep c) s) rid c.id) := by
  intro l
  induction l with
  | nil =>
    intro s hP hQ
    constructor
    · intro fid hf
      exact absurd (hP fid hf) (List.not_mem_nil _)
    · intro rid hr
      exact absurd (hQ rid hr) (List.not_mem_nil _)
  | cons sub t ih =>
    intro s hP hQ
    rw [List.foldl_cons]
    apply ih
    · intro fid hf
      unfold unsubStep at hf
      split at hf
      · rename_i htag
        obtain ⟨subs, hmem, hcid⟩ := hf
        rcases unsubFleet_entries hmem with ⟨h1, hne⟩ | ⟨h1, subs₀, hm₀, h2⟩
        · have hin := hP fid ⟨subs, h1, hcid⟩
          rcases List.mem_cons.1 hin with heq | hin'
          · exfalso
            rw [← tag_recover htag] at heq
            exact hne (tagKey_inj heq)
          · exact hin'
        · exfalso
          subst h2
          exact not_mem_setDelete_self _ _ hcid
      · split at hf
        · rename_i hnotfleet htag
          obtain ⟨subs, hmem, hcid⟩ := hf
          rw [unsubReg_fleetSubs] at hmem
          have hin := hP fid ⟨subs, hmem, hcid⟩
          rcases List.mem_cons.1 hin with heq | hin'
          · exfalso
            rw [← tag_recover htag] at heq
            exact fleet_ne_reg _ _ heq
          · exact hin'
        · rename_i hnotfleet hnotreg
          have hin := hP fid hf
          rcases List.mem_cons.1 hin with heq | hin'
          · exfalso
            rw [← heq] at hnotfleet
            rw [hasTag_self_append] at hnotfleet
            exact hnotfleet rfl
          · exact hin'
    · intro rid hr
      unfold unsubStep at hr
      split at hr
      · rename_i htag
        obtain ⟨subs, hmem, hcid⟩ := hr
        rw [unsubFleet_regSubs] at hmem
        have hin := hQ rid ⟨subs, hmem, hcid⟩
        rcases List.mem_cons.1 hin with heq | hin'
        · exfalso
          rw [← tag_recover htag] at heq
          exact fleet_ne_reg _ _ heq.symm
        · exact hin'
      · split at hr
        · rename_i hnotfleet htag
          obtain ⟨subs, hmem, hcid⟩ := hr
          rcases unsubReg_entries hmem with ⟨h1, hne⟩ | ⟨h1, subs₀, hm₀, h2⟩
          · have hin := hQ rid ⟨subs, h1, hcid⟩
            rcases List.mem_cons.1 hin with heq | hin'
            · exfalso
              rw [← tag_recover htag] at heq
              exact hne (tagKey_inj heq)
            · exact hin'
          · exfalso
            subst h2
            exact not_mem_setDelete_self _ _ hcid
        · rename_i hnotfleet hnotreg
          have hin := hQ rid hr
          rcases List.mem_cons.1 hin with heq | hin'
          · exfalso
            rw [← heq] at hnotreg
            rw [hasTag_self_append] at hnotreg
            exact hnotreg rfl
          · exact hin'



/-- `handleDisconnect` of a registered client preserves the invariant. -/
theorem HubInv.disconnect {st : HubState} {cid : String} {c : WSClient}
    (hinv : HubInv st) (hc : mapGet st.clients cid = some c) :
    HubInv (handleDisconnect st c) := by
  have hkeyc : c.id = cid := hinv.clientsKey _ _ hc
  have hc' : mapGet st.clients c.id = some c := by rw [hkeyc]; exact hc
  have hP : ∀ fid, FleetSubscribed st fid c.id →
      ("fleet:" ++ fid) ∈ c.subscriptions := by
    rintro fid ⟨subs, hmem, hcid⟩
    obtain ⟨cl, hcl, hkey⟩ := hinv.fleetOwner _ _ _ hmem hcid
    rw [hc'] at hcl
    rw [← Option.some.inj hcl] at hkey
    exact hkey
  have hQ : ∀ rid, RegSubscribed st rid c.id →
      ("regulator:" ++ rid) ∈ c.subscriptions := by
    rintro rid ⟨subs, hmem, hcid⟩
    obtain ⟨cl, hcl, hkey⟩ := hinv.regOwner _ _ _ hmem hcid
    rw [hc'] at hcl
    rw [← Option.some.inj hcl] at hkey
    exact hkey
  obtain ⟨hF, hR⟩ := foldl_unsub_clears c c.subscriptions st hP hQ
  have hinv1 : HubInv (c.subscriptions.foldl (unsubStep c) st) :=
    HubInv.foldUnsub _ _ hinv
  constructor
  · intro cid' c' h
    have hcl : (handleDisconnect st c).clients
        = mapDelete (c.subscriptions.foldl (unsubStep c) st).clients c.id :=
      rfl
    rw [hcl] at h
    by_cases hcc : cid' = c.id
    · subst hcc
      rw [mapGet_mapDelete_self] at h
      cases h
    · rw [mapGet_mapDelete_other _ hcc] at h
      exact hinv1.clientsKey _ _ h
  · intro fid subs cid' hmem hcid'
    have hfs : (handleDisconnect st c).fleetSubscriptions
        = (c.subscriptions.foldl (unsubStep c) st).fleetSubscriptions := rfl
    rw [hfs] at hmem
    obtain ⟨cl, hcl, hkey⟩ := hinv1.fleetOwner _ _ _ hmem hcid'
    have hne : cid' ≠ c.id := by
      intro he
      subst he
      exact hF fid ⟨subs, hmem, hcid'⟩
    refine ⟨cl, ?_, hkey⟩
    have hclients : (handleDisconnect st c).clients
        = mapDelete (c.subscriptions.foldl (unsubStep c) st).clients c.id :=
      rfl
    rw [hclients, mapGet_mapDelete_other _ hne]
    exact hcl
  · intro rid subs cid' hmem hcid'
    have hrs : (handleDisconnect st c).regulatorSubscriptions
        = (c.subscriptions.foldl (unsubStep c) st).regulatorSubscriptions :=
      rfl
    rw [hrs] at hmem
    obtain ⟨cl, hcl, hkey⟩ := hinv1.regOwner _ _ _ hmem hcid'
    have hne : cid' ≠ c.id := by
      intro he
      subst he
      exact hR rid ⟨subs, hmem, hcid'⟩
    refine ⟨cl, ?_, hkey⟩
    have hclients : (handleDisconnect st c).clients
        = mapDelete (c.subscriptions.foldl (unsubStep c) st).clients c.id :=
      rfl
    rw [hclients, mapGet_mapDelete_other _ hne]
    exact hcl

/-- The initial hub satisfies the invariant. -/
theorem emptyHub_inv : HubInv emptyHub := by
  constructor
  · intro cid c h
    simp [mapGet, emptyHub, List.find?] at h
  · rintro fid subs cid hmem -
    simp [emptyHub] at hmem
  · rintro rid subs cid hmem -
    simp [emptyHub] at hmem

/-- Every observable hub transition preserves the invariant. -/
theorem hubStep_inv {st st' : HubState} (hstep : HubStep st st')
    (hinv : HubInv st) : HubInv st' := by
  cases hstep with
  | connect cid payload hfresh =>
    have hreg := hinv.register cid payload hfresh
    rcases autoSubscribe_state (registerClient st (freshClient cid payload))
      (freshClient cid payload) with h | ⟨fid, h⟩
    · rw [h]
      exact hreg
    · rw [h]
      refine hreg.subFleet (freshClient cid payload) ?_
      have h2 : (registerClient st (freshClient cid payload)).clients
          = mapSet st.clients cid (freshClient cid payload) := rfl
      rw [show (freshClient cid payload).id = cid from rfl, h2,
        mapGet_mapSet_self]
  | subscribe cid c payload hc =>
    have hkeyc : c.id = cid := hinv.clientsKey _ _ hc
    have hc' : mapGet st.clients c.id = some c := by rw [hkeyc]; exact hc
    rcases handleSubscribe_state st c payload with h | ⟨fid, h⟩ | ⟨rid, h⟩
    · rw [h]; exact hinv
    · rw [h]; exact hinv.subFleet c hc'
    · rw [h]; exact hinv.subReg c hc'
  | unsubscribe cid c payload hc =>
    rcases handleUnsubscribe_state st c payload with h | ⟨fid, h⟩ | ⟨rid, h⟩
    · rw [h]; exact hinv
    · rw [h]; exact hinv.unsubFleet
    · rw [h]; exact hinv.unsubReg
  | disconnect cid c hc => exact hinv.disconnect hc

/-- Every reachable hub state satisfies the invariant. -/
theorem reachable_inv {st : HubState} (h : Reachable st) : HubInv st := by
  induction h with
  | refl => exact emptyHub_inv
  | tail hsteps hstep ih => exact hubStep_inv hstep ih

/-- C7: in every reachable hub state, after the disconnect handler runs
for a registered connection, its id is gone from the client registry and
from every fleet and device channel's subscriber set. -/
theorem hub_disconnect_no_residue :
    ∀ (st : HubState), Reachable st →
    ∀ (cid : String) (c : WSClient), mapGet st.clients cid = some c →
    noResidue (handleDisconnect st c) cid = true := by
  intro st hreach cid c hc
  have hinv := reachable_inv hreach
  have hkeyc : c.id = cid := hinv.clientsKey _ _ hc
  subst hkeyc
  have hP : ∀ fid, FleetSubscribed st fid c.id →
      ("fleet:" ++ fid) ∈ c.subscriptions := by
    rintro fid ⟨subs, hmem, hcid⟩
    obtain ⟨cl, hcl, hkey⟩ := hinv.fleetOwner _ _ _ hmem hcid
    rw [hc] at hcl
    rw [← Option.some.inj hcl] at hkey
    exact hkey
  have hQ : ∀ rid, RegSubscribed st rid c.id →
      ("regulator:" ++ rid) ∈ c.subscriptions := by
    rintro rid ⟨subs, hmem, hcid⟩
    obtain ⟨cl, hcl, hkey⟩ := hinv.regOwner _ _ _ hmem hcid
    rw [hc] at hcl
    rw [← Option.some.inj hcl] at hkey
    exact hkey
  obtain ⟨hF, hR⟩ := foldl_unsub_clears c c.subscriptions st hP hQ
  unfold noResidue
  rw [Bool.and_eq_true, Bool.and_eq_true]
  refine ⟨⟨?_, ?_⟩, ?_⟩
  · have h1 : (handleDisconnect st c).clients
        = mapDelete (c.subscriptions.foldl (unsubStep c) st).clients c.id :=
      rfl
    rw [h1, mapGet_mapDelete_self]
    rfl
  · rw [List.all_eq_true]
    intro kv hkv
    have hfs : (handleDisconnect st c).fleetSubscriptions
        = (c.subscriptions.foldl (unsubStep c) st).fleetSubscriptions := rfl
    rw [hfs] at hkv
    cases hcont : kv.2.contains c.id
    · rfl
    · exfalso
      have hmem : c.id ∈ kv.2 := List.mem_of_elem_eq_true hcont
      exact hF kv.1 ⟨kv.2, hkv, hmem⟩
  · rw [List.all_eq_true]
    intro kv hkv
    have hrs : (handleDisconnect st c).regulatorSubscriptions
        = (c.subscriptions.foldl (unsubStep c) st).regulatorSubscriptions :=
      rfl
    rw [hrs] at hkv
    cases hcont : kv.2.contains c.id
    · rfl
    · exfalso
      have hmem : c.id ∈ kv.2 := List.mem_of_elem_eq_true hcont
      exact hR kv.1 ⟨kv.2, hkv, hmem⟩

/-- C7 witness: a concrete connect-then-disconnect trace leaves no trace
of the connection. -/
theorem hub_disconnect_no_residue_witness :
    noResidue (handleDisconnect st7 c7conn) "c1" = true :=
  hub_disconnect_no_residue st7
    (Relation.ReflTransGen.single (HubStep.connect emptyHub "c1" p7 rfl))
    "c1" c7conn (by decide)

end VMAX
